import Mathlib

/-!
# datadis-exporter: retrying transport and record transformers

A shallow embedding of `main.go`.

* Part 1 embeds `shouldRetry` and `retryableTransport.RoundTrip`.  The wrapped
  `http.RoundTripper` is an oracle giving, for the i-th call of one `RoundTrip`
  invocation, the pair `(resp, err)` it returns.  Every observable effect of
  `RoundTrip` (calls of the wrapped transport, sleeps, draining and closing of
  response bodies, log lines) is appended to an explicit trace.  A nil pointer
  dereference is an explicit outcome.
* Part 2 embeds the standard-library calls the transformers make on the time
  text: `time.Parse` with the layout `"2006/01/02 15:04"` (after Go 1.22,
  `time/format.go`), `time.Date` and `Time.Unix` (`time/time.go`), with the
  unsigned and signed 64-bit conversions of `Date` made explicit.
* Part 3 embeds `fmt.Sprintf` for the two format strings of the source, the two
  loop bodies, the loops, and the distributor-error check.  A `float64` is a
  finite dyadic value and `%.3f` rounds its exact value to the nearest
  multiple of 0.001, ties to even, as `strconv` does.  A `log.Fatalln` ends a
  task with the writes made so far.  Each task is embedded on its own, as the
  sequence of its `WriteString` calls; what the buffer shared by the two
  goroutines holds after both ran is not modelled.
* The specification side counts calendar days, describes well-formed date and
  time texts and the shape of a line; the theorems relate it to the code.

Go strings are embedded as `String`; the source only compares them, appends
them and scans them for ASCII digits and separators.
-/

namespace Datadis

/-! ## Part 1: the retrying transport -/

/-- Go `time.Second`, in nanoseconds (the unit of `time.Duration`). -/
def Second : Nat := 1000000000

/-- Source line 112: `const retryCount = 3`. -/
def retryCount : Nat := 3

/-- The part of `*http.Request` that `RoundTrip` touches: the target and the
body (`none` is a nil `req.Body`), as the bytes a reader of it would obtain. -/
structure Request where
  url : String
  body : Option (List Nat)
  deriving DecidableEq, Repr

/-- The part of `http.Response` that the source reads: `StatusCode`, `Status`
and `Body` (`none` is a nil `Body`). -/
structure Response where
  statusCode : Nat
  status : String
  body : Option (List Nat)
  deriving DecidableEq, Repr

/-- What one call of the wrapped `t.transport.RoundTrip(req)` returns: the Go
pair `(resp, err)`; `none` is `nil`. -/
structure Answer where
  resp : Option Response
  err : Option String
  deriving DecidableEq, Repr

/-- The wrapped round tripper as seen by one invocation of `RoundTrip`: the
answer to the call number `i` (from 0) when handed request `req`. -/
abbrev Transport := Nat → Request → Answer

/-- Observable effects of `RoundTrip`, in program order. -/
inductive Event where
  | attempt (req : Request)
  | sleep (nanos : Nat)
  | drainClose (resp : Response)
  | log (line : String)
  deriving DecidableEq, Repr

/-- How an invocation ends: it returns the Go pair `(resp, err)`, or it
dereferences a nil `*http.Response` (a run-time panic). -/
inductive Outcome where
  | returned (ans : Answer)
  | nilDeref
  deriving DecidableEq, Repr

/-- Source lines 114-127. -/
def shouldRetry (err : Option String) (resp : Option Response) : Bool :=
  if err.isSome then true
  else
    match resp with
    | none => true
    | some r =>
      if r.statusCode = 500 ∨ r.statusCode = 502 ∨ r.statusCode = 503 ∨ r.statusCode = 504 then true
      else false

/-- Source line 138: `time.Duration(math.Pow(2, float64(retries))) * time.Second`.
For `retries < retryCount` the power is an exact small integer and the product
stays far below `2^63`, so no rounding or wrap-around takes place. -/
def backoff (retries : Nat) : Nat := 2 ^ retries * Second

/-- Source lines 131-134: the body is read in full once and the request gets a
fresh reader over those bytes. -/
def bufferBody (req : Request) : Request × List Nat :=
  match req.body with
  | none => (req, [])
  | some b => ({ req with body := some b }, b)

/-- Source lines 137-153, the `for` loop.  `fuel` bounds the number of
iterations of the model; `ans` is the current `(resp, err)`, `retries` the
counter, `tr` the trace so far.  `none` means the fuel ran out. -/
def retryLoop (t : Transport) (bodyBytes : List Nat) :
    Nat → Request → Nat → Answer → List Event → Option (Outcome × List Event)
  | 0, _, _, _, _ => none
  | fuel + 1, req, retries, ans, tr =>
    if shouldRetry ans.err ans.resp && decide (retries < retryCount) then
      let tr := tr ++ [Event.sleep (backoff retries)]
      -- line 140: `resp.Body` is read without a nil check on `resp`
      match ans.resp with
      | none => some (Outcome.nilDeref, tr)
      | some resp =>
        let tr := if resp.body.isSome then tr ++ [Event.drainClose resp] else tr
        let req := if req.body.isSome then { req with body := some bodyBytes } else req
        let tr := tr ++ [Event.log ("Previous request failed with " ++ resp.status)]
        let tr := tr ++ [Event.log ("Retry " ++ toString (retries + 1) ++ " of request to: " ++ req.url)]
        let ans := t (retries + 1) req
        retryLoop t bodyBytes fuel req (retries + 1) ans (tr ++ [Event.attempt req])
    else some (Outcome.returned ans, tr)

/-- Source lines 129-155, `retryableTransport.RoundTrip`. -/
def RoundTrip (t : Transport) (req : Request) : Option (Outcome × List Event) :=
  let (req, bodyBytes) := bufferBody req
  let ans := t 0 req
  retryLoop t bodyBytes (retryCount + 1) req 0 ans [Event.attempt req]

/-- The requests handed to the wrapped transport, in order. -/
def attempts : List Event → List Request
  | [] => []
  | Event.attempt r :: es => r :: attempts es
  | _ :: es => attempts es

/-- The durations slept, in order, in nanoseconds. -/
def sleeps : List Event → List Nat
  | [] => []
  | Event.sleep n :: es => n :: sleeps es
  | _ :: es => sleeps es

/-- The calls of the wrapped transport and the sleeps, in program order. -/
def timeline : List Event → List Event
  | [] => []
  | Event.attempt r :: es => Event.attempt r :: timeline es
  | Event.sleep n :: es => Event.sleep n :: timeline es
  | _ :: es => timeline es

/-- The schedule the specification asks for after `k` retries: the initial
attempt, then for `i = 0 .. k-1` a sleep of `2^i` seconds followed by retry `i`. -/
def retrySchedule (req : Request) : Nat → List Event
  | 0 => [Event.attempt req]
  | k + 1 => retrySchedule req k ++ [Event.sleep (2 ^ k * Second), Event.attempt req]

/-- A sample request: a POST with a three-byte body. -/
def sampleRequest : Request := ⟨"https://datadis.es/nikola-auth/tokens/login", some [117, 61, 120]⟩

/-- A sample server: status 503 on the first `k` calls, status 200 afterwards. -/
def flakyTransport (k : Nat) : Transport := fun i _ =>
  if i < k then ⟨some ⟨503, "503 Service Unavailable", some [111]⟩, none⟩
  else ⟨some ⟨200, "200 OK", some [116]⟩, none⟩

/-- A sample server that answers every call with the given status. -/
def constTransport (code : Nat) (status : String) : Transport := fun _ _ =>
  ⟨some ⟨code, status, some []⟩, none⟩

/-- A sample network: the first call fails before any response (nil response,
non-nil error), every later call is answered with status 200. -/
def dialErrorTransport : Transport := fun i _ =>
  if i = 0 then ⟨none, some "dial tcp: i/o timeout"⟩
  else ⟨some ⟨200, "200 OK", some [116]⟩, none⟩

/-- The statuses `shouldRetry` treats as retryable. -/
def retryableStatus (s : Nat) : Prop := s = 500 ∨ s = 502 ∨ s = 503 ∨ s = 504

instance (s : Nat) : Decidable (retryableStatus s) := by
  unfold retryableStatus; infer_instance

/-- The events one retry appends after a retryable answer carrying `resp`. -/
def retryEvents (req : Request) (retries : Nat) (resp : Response) : List Event :=
  [Event.sleep (backoff retries)]
    ++ (if resp.body.isSome then [Event.drainClose resp] else [])
    ++ [Event.log ("Previous request failed with " ++ resp.status),
        Event.log ("Retry " ++ toString (retries + 1) ++ " of request to: " ++ req.url),
        Event.attempt req]

/-! ## Part 2: `time.Parse("2006/01/02 15:04", value)` and `Time.Unix` -/

/-- Go `uint64(x)` of an integer: reduction modulo `2^64`. -/
def toUint64 (x : Int) : Nat := (x % 18446744073709551616).toNat

/-- Go `int64(x)`: the two's complement reading of `x` modulo `2^64`. -/
def toInt64 (x : Int) : Int :=
  if x % 18446744073709551616 < 9223372036854775808 then x % 18446744073709551616
  else x % 18446744073709551616 - 18446744073709551616

/-- A `*time.Location` with a single fixed offset, in seconds east of UTC. -/
structure Location where
  name : String
  offset : Int
  deriving DecidableEq, Repr

/-- Go `time.UTC`. -/
def UTC : Location := ⟨"UTC", 0⟩

/-- A `time.Time` at whole-second precision: Unix seconds and the location. -/
structure Time where
  unix : Int
  loc : Location
  deriving DecidableEq, Repr

/-- Go `Time.Unix`. -/
def Time.Unix (t : Time) : Int := t.unix

/-- Go `time.isLeap`. -/
def isLeap (year : Int) : Bool :=
  year % 4 == 0 && (year % 100 != 0 || year % 400 == 0)

/-- Go `time.daysBefore`: days before the start of month `m+1` in a non-leap year. -/
def daysBefore : List Int := [0, 31, 59, 90, 120, 151, 181, 212, 243, 273, 304, 334, 365]

/-- Go `time.daysIn`. -/
def daysIn (m : Int) (year : Int) : Int :=
  if m = 2 ∧ isLeap year then 29
  else daysBefore.getD m.toNat 0 - daysBefore.getD (m - 1).toNat 0

/-- Go `time.norm`. -/
def norm (hi lo base : Int) : Int × Int :=
  let (hi, lo) :=
    if lo < 0 then
      let n := (-lo - 1) / base + 1
      (hi - n, lo + n * base)
    else (hi, lo)
  if lo ≥ base then
    let n := lo / base
    (hi + n, lo - n * base)
  else (hi, lo)

/-- Go `time.absoluteZeroYear`. -/
def absoluteZeroYear : Int := -292277022399

/-- Go `absoluteToInternal + internalToUnix`, in seconds. -/
def absoluteToUnix : Int := -9223371966579724800 + -62135596800

/-- Go `time.daysSinceEpoch` (days from the absolute epoch to the start of `year`). -/
def daysSinceEpoch (year : Int) : Nat :=
  let y := toUint64 (toInt64 year - absoluteZeroYear)
  let n := y / 400
  let y := y - 400 * n
  let d := 146097 * n
  let n := y / 100
  let y := y - 100 * n
  let d := d + 36524 * n
  let n := y / 4
  let y := y - 4 * n
  let d := d + 1461 * n
  let n := y
  let d := d + 365 * n
  d % 18446744073709551616

/-- Go `time.Date` for a fixed-offset location. -/
def Date (year month day hour min sec nsec : Int) (loc : Location) : Time :=
  let m := month - 1
  let (year, m) := norm year m 12
  let month := m + 1
  let (sec, _nsec) := norm sec nsec 1000000000
  let (min, sec) := norm min sec 60
  let (hour, min) := norm hour min 60
  let (day, hour) := norm day hour 24
  let d := daysSinceEpoch year
  let d := (d + toUint64 (daysBefore.getD (month - 1).toNat 0)) % 18446744073709551616
  let d := if isLeap year && decide (month ≥ 3) then (d + 1) % 18446744073709551616 else d
  let d := (d + toUint64 (day - 1)) % 18446744073709551616
  let abs := (d * 86400) % 18446744073709551616
  let abs := (abs + toUint64 (hour * 3600 + min * 60 + sec)) % 18446744073709551616
  let unix := toInt64 (toInt64 abs + absoluteToUnix)
  let unix := if loc.offset ≠ 0 then toInt64 (unix - loc.offset) else unix
  ⟨unix, loc⟩

/-- Go `time.isDigit`. -/
def isDigit (s : List Char) (i : Nat) : Bool :=
  match s.get? i with
  | none => false
  | some c => decide ('0' ≤ c) && decide (c ≤ '9')

/-- The value of a decimal digit character, `c - '0'`. -/
def digitVal (c : Char) : Int := (c.toNat : Int) - 48

/-- Go `time.getnum`. -/
def getnum (s : List Char) (fixed : Bool) : Option (Int × List Char) :=
  if !isDigit s 0 then none
  else if !isDigit s 1 then
    if fixed then none
    else
      match s with
      | c :: rest => some (digitVal c, rest)
      | [] => none
  else
    match s with
    | c0 :: c1 :: rest => some (digitVal c0 * 10 + digitVal c1, rest)
    | _ => none

/-- Go `time.leadingInt`, the loop from position 0 with accumulator `x`. -/
def leadingInt : List Char → Nat → Option (Nat × List Char)
  | [], x => some (x, [])
  | c :: rest, x =>
    if c < '0' ∨ c > '9' then some (x, c :: rest)
    else if x > 9223372036854775808 / 10 then none
    else
      let x := x * 10 + (c.toNat - 48)
      if x > 9223372036854775808 then none
      else leadingInt rest x

/-- Go `time.atoi`. -/
def atoi (s : List Char) : Option Int :=
  let signed := decide (s.head? = some '-' ∨ s.head? = some '+')
  let neg := signed && decide (s.head? = some '-')
  let s := if signed then s.tail else s
  match leadingInt s 0 with
  | none => none
  | some (q, rem) =>
    if rem ≠ [] then none
    else some (if neg then -(q : Int) else (q : Int))

/-- Go `time.cutspace`. -/
def cutspace : List Char → List Char
  | ' ' :: rest => cutspace rest
  | s => s

/-- Go `time.skip`, with `fuel` bounding the iterations of its loop. -/
def skipLoop : Nat → List Char → List Char → Option (List Char)
  | _, value, [] => some value
  | 0, _, _ :: _ => none
  | fuel + 1, value, p :: ps =>
    if p = ' ' then
      match value with
      | v :: vs =>
        if v ≠ ' ' then none
        else skipLoop fuel (cutspace (v :: vs)) (cutspace (p :: ps))
      | [] => skipLoop fuel (cutspace []) (cutspace (p :: ps))
    else
      match value with
      | v :: vs => if v ≠ p then none else skipLoop fuel vs ps
      | [] => none

/-- Go `time.skip`. -/
def skip (value pfx : List Char) : Option (List Char) :=
  skipLoop pfx.length value pfx

/-- The `stdLongYear` case of `time.parse`: four characters, the first a
digit, read with `atoi`. -/
def parseLongYear (value : List Char) : Option (Int × List Char) :=
  if value.length < 4 ∨ !isDigit value 0 then none
  else
    match atoi (value.take 4) with
    | none => none
    | some year => some (year, value.drop 4)

/-- The `stdZeroMonth` case of `time.parse`. -/
def parseZeroMonth (value : List Char) : Option (Int × List Char) :=
  match getnum value true with
  | none => none
  | some (month, value) => if month ≤ 0 ∨ 12 < month then none else some (month, value)

/-- The `stdZeroDay` case of `time.parse`: any two-digit day; the day is
validated against the month after the loop. -/
def parseZeroDay (value : List Char) : Option (Int × List Char) :=
  getnum value true

/-- The `stdHour` case of `time.parse`. -/
def parseHour (value : List Char) : Option (Int × List Char) :=
  match getnum value false with
  | none => none
  | some (hour, value) => if hour < 0 ∨ 24 ≤ hour then none else some (hour, value)

/-- The `stdZeroMinute` case of `time.parse`. -/
def parseZeroMinute (value : List Char) : Option (Int × List Char) :=
  match getnum value true with
  | none => none
  | some (min, value) => if min < 0 ∨ 60 ≤ min then none else some (min, value)

/-- The end of `time.parse`: nothing may be left of the value, the day must
exist in the month, and the time is built in `loc`. -/
def parseFinish (value : List Char) (year month day hour min : Int) (loc : Location) :
    Option Time :=
  if value.length ≠ 0 then none
  else if day < 1 ∨ day > daysIn month year then none
  else some (Date year month day hour min 0 0 loc)

/-- Go `time.parse` for the layout `"2006/01/02 15:04"`, whose chunks are
(`""`, stdLongYear), (`"/"`, stdZeroMonth), (`"/"`, stdZeroDay),
(`" "`, stdHour), (`":"`, stdZeroMinute) and a final empty chunk.  `none` is
a parse error.  The layout has no zone element, so the result is built in
`defaultLocation` and `locl` is not consulted. -/
def parse (value : List Char) (defaultLocation _locl : Location) : Option Time :=
  (skip value []).bind fun value =>
  (parseLongYear value).bind fun yv =>
  (skip yv.2 ['/']).bind fun value =>
  (parseZeroMonth value).bind fun mv =>
  (skip mv.2 ['/']).bind fun value =>
  (parseZeroDay value).bind fun dv =>
  (skip dv.2 [' ']).bind fun value =>
  (parseHour value).bind fun hv =>
  (skip hv.2 [':']).bind fun value =>
  (parseZeroMinute value).bind fun nv =>
  (skip nv.2 []).bind fun value =>
  parseFinish value yv.1 mv.1 dv.1 hv.1 nv.1 defaultLocation

/-- Go `time.Parse(layout, value)` is `parse(layout, value, UTC, Local)`, here
for the layout `"2006/01/02 15:04"`; `locl` is the zone of the run. -/
def Parse (value : String) (locl : Location) : Option Time :=
  parse value.data UTC locl


/-! ## Part 3: formatting and the record transformers -/

/-- A finite `float64`: the value `(-1)^neg * mant * 2^exp`.  (`json.Unmarshal`
only ever stores finite values in a `float64` field.) -/
structure Float64 where
  neg : Bool
  mant : Nat
  exp : Int
  deriving DecidableEq, Repr

/-- The character of a decimal digit `d < 10`. -/
def digitChar (d : Nat) : Char := Char.ofNat (48 + d % 10)

/-- Go `strconv.FormatInt(i, 10)`, which `%v` applies to an `int64`. -/
def formatInt (i : Int) : List Char :=
  if i < 0 then '-' :: (Nat.toDigits 10 i.natAbs) else Nat.toDigits 10 i.toNat

/-- The integer nearest to `mant * 2^exp * 10^prec`, ties going to the even
neighbour: the rounding of `strconv.FormatFloat(f, 'f', prec, 64)`, which
works on the exact decimal expansion of the binary value. -/
def roundScaled (mant : Nat) (exp : Int) (prec : Nat) : Nat :=
  if 0 ≤ exp then mant * 2 ^ exp.toNat * 10 ^ prec
  else
    let den := 2 ^ (-exp).toNat
    let num := mant * 10 ^ prec
    let q := num / den
    let r := num % den
    if 2 * r > den then q + 1
    else if 2 * r = den then (if q % 2 = 0 then q else q + 1)
    else q

/-- The `prec` low decimal digits of `n`, most significant first. -/
def fracDigits (n : Nat) : Nat → List Char
  | 0 => []
  | p + 1 => fracDigits (n / 10) p ++ [digitChar n]

/-- Go `%.<prec>f` of a finite `float64`: optional `-`, the integer part in
decimal (at least one digit), a point, and `prec` fraction digits. -/
def formatFloat (f : Float64) (prec : Nat) : List Char :=
  let n := roundScaled f.mant f.exp prec
  (if f.neg then ['-'] else []) ++ Nat.toDigits 10 (n / 10 ^ prec) ++ ['.']
    ++ fracDigits (n % 10 ^ prec) prec

/-- An operand of `fmt.Sprintf`. -/
inductive Arg where
  | str (s : String)
  | float (f : Float64)
  | int (i : Int)
  deriving DecidableEq, Repr

/-- Go `fmt.Sprintf` for the verbs the source uses: `%s` of a string, `%.3f`
of a `float64`, `%v` of an `int64`; every other character of the format is
copied.  `none` stands for any other verb or operand mismatch. -/
def SprintfChars : List Char → List Arg → Option (List Char)
  | [], [] => some []
  | [], _ :: _ => none
  | '%' :: 's' :: rest, Arg.str s :: args => (SprintfChars rest args).map (s.data ++ ·)
  | '%' :: '.' :: '3' :: 'f' :: rest, Arg.float f :: args =>
    (SprintfChars rest args).map (formatFloat f 3 ++ ·)
  | '%' :: 'v' :: rest, Arg.int i :: args => (SprintfChars rest args).map (formatInt i ++ ·)
  | '%' :: _, _ => none
  | c :: rest, args => (SprintfChars rest args).map (c :: ·)

/-- Go `fmt.Sprintf(format, args...)`. -/
def Sprintf (format : String) (args : List Arg) : Option String :=
  (SprintfChars format.data args).map String.mk

/-- The fields of `Config` the transformers read. -/
structure Config where
  Cups : String
  DistributorCode : String
  deriving DecidableEq, Repr

/-- Source lines 63-68. -/
structure Consumption where
  MeasureMagnitudeActive : Float64
  Date : String
  Hour : String
  Period : String
  deriving DecidableEq, Repr

/-- Source lines 78-83. -/
structure Power where
  Period : String
  MaxPower : Float64
  Date : String
  Time : String
  deriving DecidableEq, Repr

/-- Source lines 19-24. -/
structure DistributorError where
  Code : String
  Name : String
  ErrorCode : String
  ErrorDescription : String
  deriving DecidableEq, Repr

/-- Source lines 85-88. -/
structure PowerResponse where
  Response : List Power
  DistributorError : List DistributorError
  deriving DecidableEq, Repr

/-- The `log.Fatalln` calls of the two transformer loops; each ends the process. -/
inductive Fatal where
  | parsingTimestamp (value : String)
  | distributor (errorCode errorDescription : String)
  | formatting
  deriving DecidableEq, Repr

/-- Source lines 335-337 and 403-405. -/
def normalizeTime (t : String) : String :=
  if t = "24:00" then "00:00" else t

/-- Source lines 342-349, the `switch stat.Period`. -/
def mapPeriod (period : String) : String :=
  if period = "PUNTA" then "1"
  else if period = "LLANO" then "2"
  else if period = "VALLE" then "3"
  else period

/-- Source lines 335-341: the timestamp of a consumption record. -/
def consumptionTimestamp (locl : Location) (stat : Consumption) : Except Fatal Int :=
  let hour := normalizeTime stat.Hour
  match Parse (stat.Date ++ " " ++ hour) locl with
  | none => .error (Fatal.parsingTimestamp (stat.Date ++ " " ++ hour))
  | some timestamp => .ok timestamp.Unix

/-- Source lines 403-409: the timestamp of a power record. -/
def powerTimestamp (locl : Location) (stat : Power) : Except Fatal Int :=
  let time := normalizeTime stat.Time
  match Parse (stat.Date ++ " " ++ time) locl with
  | none => .error (Fatal.parsingTimestamp (stat.Date ++ " " ++ time))
  | some timestamp => .ok timestamp.Unix

/-- Source lines 335-355: the body of the consumption loop up to the line
handed to `payload.WriteString`. -/
def consumptionLine (config : Config) (locl : Location) (stat : Consumption) :
    Except Fatal String :=
  match consumptionTimestamp locl stat with
  | .error e => .error e
  | .ok unix =>
    let period := mapPeriod stat.Period
    match Sprintf "datadis_consumption,cups=%s,period=%s consumption=%.3f %v\n"
        [Arg.str config.Cups, Arg.str period, Arg.float stat.MeasureMagnitudeActive,
          Arg.int unix] with
    | none => .error Fatal.formatting
    | some influxLine => .ok influxLine

/-- Source lines 403-415: the body of the power loop up to the line handed to
`payload.WriteString`. -/
def powerLine (config : Config) (locl : Location) (stat : Power) : Except Fatal String :=
  match powerTimestamp locl stat with
  | .error e => .error e
  | .ok unix =>
    match Sprintf "datadis_power,cups=%s,period=%s max_power=%.3f %v\n"
        [Arg.str config.Cups, Arg.str stat.Period, Arg.float stat.MaxPower, Arg.int unix] with
    | none => .error Fatal.formatting
    | some influxLine => .ok influxLine

/-- What one task did: the strings it handed to `payload.WriteString`, in
order, and the `log.Fatalln` that ended the process, if any. -/
structure TaskRun where
  written : List String
  fatal : Option Fatal
  deriving DecidableEq, Repr

/-- Source lines 334-358, the loop over `consumption.Response.TimeCurveList`;
`written` are the writes made so far. -/
def consumptionLoop (config : Config) (locl : Location) :
    List Consumption → List String → TaskRun
  | [], written => ⟨written, none⟩
  | stat :: rest, written =>
    match consumptionLine config locl stat with
    | .error e => ⟨written, some e⟩
    | .ok influxLine => consumptionLoop config locl rest (written ++ [influxLine])

/-- Source lines 402-418, the loop over `power.Response`. -/
def powerLoop (config : Config) (locl : Location) : List Power → List String → TaskRun
  | [], written => ⟨written, none⟩
  | stat :: rest, written =>
    match powerLine config locl stat with
    | .error e => ⟨written, some e⟩
    | .ok influxLine => powerLoop config locl rest (written ++ [influxLine])

/-- Source lines 396-400, the loop over `power.DistributorError`: the first
entry whose code is the configured one ends the process. -/
def distributorCheck (config : Config) : List DistributorError → Option Fatal
  | [] => none
  | derror :: rest =>
    if derror.Code = config.DistributorCode then
      some (Fatal.distributor derror.ErrorCode derror.ErrorDescription)
    else distributorCheck config rest

/-- Source lines 334-358: the consumption task from the decoded response on. -/
def consumptionTask (config : Config) (locl : Location) (timeCurveList : List Consumption) :
    TaskRun :=
  consumptionLoop config locl timeCurveList []

/-- Source lines 396-418: the power task from the decoded response on. -/
def powerTask (config : Config) (locl : Location) (power : PowerResponse) : TaskRun :=
  match distributorCheck config power.DistributorError with
  | some e => ⟨[], some e⟩
  | none => powerLoop config locl power.Response []

/-! ## Specification-side definitions: calendar, well-formed strings, lines -/

/-- The Gregorian leap-year rule: divisible by 4 and not by 100, or divisible by 400. -/
def leapYear (y : Nat) : Prop := (y % 4 = 0 ∧ y % 100 ≠ 0) ∨ y % 400 = 0

instance (y : Nat) : Decidable (leapYear y) := by
  unfold leapYear; infer_instance

/-- The number of days of year `y` of the proleptic Gregorian calendar. -/
def yearLength (y : Nat) : Nat := if leapYear y then 366 else 365

/-- The number of days of month `m` (1 to 12) of year `y`. -/
def monthLength (y m : Nat) : Nat :=
  if m = 2 then (if leapYear y then 29 else 28)
  else if m = 4 ∨ m = 6 ∨ m = 9 ∨ m = 11 then 30
  else 31

/-- Days from 0000-01-01 to the civil date `y-m-d`, by counting whole years,
then whole months, then days. -/
def daysFromYearZero (y m d : Nat) : Nat :=
  ((List.range y).map yearLength).sum
    + ((List.range (m - 1)).map (fun j => monthLength y (j + 1))).sum + (d - 1)

/-- Days from 1970-01-01 to the civil date `y-m-d` (negative before 1970). -/
def civilEpochDays (y m d : Nat) : Int :=
  (daysFromYearZero y m d : Int) - (daysFromYearZero 1970 1 1 : Int)

/-- The Unix epoch second count of the civil date and time `y-m-d hh:mm:00`
read in a zone that is `offset` seconds east of UTC. -/
def civilEpochSeconds (offset : Int) (y m d hh mm : Nat) : Int :=
  civilEpochDays y m d * 86400 + (hh : Int) * 3600 + (mm : Int) * 60 - offset

/-- Two decimal digits, zero padded. -/
def pad2 (n : Nat) : List Char := [digitChar (n / 10), digitChar n]

/-- Four decimal digits, zero padded. -/
def pad4 (n : Nat) : List Char :=
  [digitChar (n / 1000), digitChar (n / 100), digitChar (n / 10), digitChar n]

/-- The text `YYYY/MM/DD` of a civil date. -/
def dateString (y m d : Nat) : String := ⟨pad4 y ++ ['/'] ++ pad2 m ++ ['/'] ++ pad2 d⟩

/-- The text `HH:MM` of a time of day. -/
def timeString (hh mm : Nat) : String := ⟨pad2 hh ++ [':'] ++ pad2 mm⟩

/-- A calendar date with a four-digit year. -/
def validDate (y m d : Nat) : Prop :=
  y ≤ 9999 ∧ 1 ≤ m ∧ m ≤ 12 ∧ 1 ≤ d ∧ d ≤ monthLength y m

instance (y m d : Nat) : Decidable (validDate y m d) := by
  unfold validDate; infer_instance

/-- A time of day. -/
def validTime (hh mm : Nat) : Prop := hh ≤ 23 ∧ mm ≤ 59

instance (hh mm : Nat) : Decidable (validTime hh mm) := by
  unfold validTime; infer_instance

/-- A well-formed `"YYYY/MM/DD"` text. -/
def WellFormedDate (s : String) : Prop :=
  ∃ y m d, validDate y m d ∧ s = dateString y m d

/-- A well-formed time text: `"HH:MM"`, or the provider's `"24:00"`. -/
def WellFormedTime (s : String) : Prop :=
  s = "24:00" ∨ ∃ hh mm, validTime hh mm ∧ s = timeString hh mm

/-- The line the specification gives for a consumption record with Unix time `unix`. -/
def consumptionLineText (config : Config) (stat : Consumption) (unix : Int) : String :=
  "datadis_consumption,cups=" ++ config.Cups ++ ",period=" ++ mapPeriod stat.Period
    ++ " consumption=" ++ String.mk (formatFloat stat.MeasureMagnitudeActive 3)
    ++ " " ++ String.mk (formatInt unix) ++ "\n"

/-- The line the specification gives for a power record with Unix time `unix`. -/
def powerLineText (config : Config) (stat : Power) (unix : Int) : String :=
  "datadis_power,cups=" ++ config.Cups ++ ",period=" ++ stat.Period
    ++ " max_power=" ++ String.mk (formatFloat stat.MaxPower 3)
    ++ " " ++ String.mk (formatInt unix) ++ "\n"

/-- The lines of a text: the pieces ended by a line feed, without it; `cur`
is the piece being read (reversed).  Text after the last line feed is not a line. -/
def splitLinesAux : List Char → List Char → List (List Char)
  | [], _ => []
  | c :: rest, cur =>
    if c = '\n' then cur.reverse :: splitLinesAux rest []
    else splitLinesAux rest (c :: cur)

/-- The lines of a text. -/
def splitLines (text : String) : List String :=
  (splitLinesAux text.data []).map String.mk

/-- The `float64` nearest to 1.234, `5557441940175192 * 2^-52`. -/
def f1234 : Float64 := ⟨false, 5557441940175192, -52⟩

/-- A sample configuration. -/
def sampleConfig : Config := ⟨"ES0021000000000001JN", "2"⟩

/-- The record of the concrete scenario of the specification. -/
def sampleConsumption : Consumption := ⟨f1234, "2024/05/01", "13:00", "PUNTA"⟩

/-- A sample power record, labelled with the provider's `24:00`. -/
def samplePower : Power := ⟨"PUNTA", ⟨false, 7, -1⟩, "2024/02/29", "24:00"⟩

/-- A zone two hours east of UTC. -/
def CEST : Location := ⟨"CEST", 7200⟩

/-- The content of a `bytes.Buffer` after the given `WriteString` calls made
one after another by a single writer. -/
def bufferContent (writes : List String) : String :=
  writes.foldl (fun buf w => buf ++ w) ""

/-- Text of a number with exactly three decimal places: an optional minus sign,
one or more digits, a point, three digits. -/
def FixedThree (s : List Char) : Prop :=
  ∃ sign ip a b c, s = sign ++ ip ++ ['.', a, b, c] ∧ (sign = [] ∨ sign = ['-']) ∧ ip ≠ []
    ∧ (∀ ch ∈ ip, ch.isDigit = true) ∧ a.isDigit = true ∧ b.isDigit = true ∧ c.isDigit = true

/-- Text of an integer in decimal: an optional minus sign and one or more digits. -/
def DecimalInt (s : List Char) : Prop :=
  ∃ sign ds, s = sign ++ ds ∧ (sign = [] ∨ sign = ['-']) ∧ ds ≠ []
    ∧ (∀ ch ∈ ds, ch.isDigit = true)

/-- The number that decimal digits denote, read left to right after the
value `acc`; `none` when a character is not a decimal digit. -/
def readDigits : List Char → Nat → Option Nat
  | [], acc => some acc
  | c :: cs, acc => if c.isDigit then readDigits cs (acc * 10 + (c.toNat - 48)) else none

/-- The natural number a non-empty decimal numeral denotes. -/
def readNat (s : List Char) : Option Nat :=
  if s = [] then none else readDigits s 0

/-- The integer a decimal numeral with an optional minus sign denotes. -/
def readInt (s : List Char) : Option Int :=
  if s.head? = some '-' then
    match readNat s.tail with
    | some n => some (-(Int.ofNat n))
    | none => none
  else
    match readNat s with
    | some n => some (Int.ofNat n)
    | none => none

/-- Reads a text `[-]digits.ddd`: whether it carries a minus sign, and the
number of thousandths it denotes (`12.345` denotes 12345 thousandths). -/
def readFixedThree (s : List Char) : Option (Bool × Nat) :=
  let neg := decide (s.head? = some '-')
  let body := if neg then s.tail else s
  let ip := body.takeWhile (fun c => c ≠ '.')
  match body.dropWhile (fun c => c ≠ '.') with
  | ['.', a, b, c] =>
    match readNat ip, readNat [a, b, c] with
    | some i, some fr => some (neg, i * 1000 + fr)
    | _, _ => none
  | _ => none

/-- Numerator of `|f| * 1000` over `scaledDen f`. -/
def scaledNum (f : Float64) : Nat := f.mant * 1000 * 2 ^ f.exp.toNat

/-- Denominator: `|f| * 1000 = scaledNum f / scaledDen f` exactly. -/
def scaledDen (f : Float64) : Nat := 2 ^ (-f.exp).toNat

/-- The natural number `n` is the integer nearest to `|f| * 1000`, the even
one of the two when `|f| * 1000` lies exactly half way: `n / 1000` is `|f|`
rounded to three decimal places. -/
def NearestThousandth (f : Float64) (n : Nat) : Prop :=
  2 * ((scaledNum f : Int) - (n : Int) * (scaledDen f : Int)).natAbs ≤ scaledDen f
    ∧ (2 * ((scaledNum f : Int) - (n : Int) * (scaledDen f : Int)).natAbs = scaledDen f
        → n % 2 = 0)

/-- A terminated line: text without a line feed, followed by one line feed. -/
def IsLine (l : String) : Prop :=
  ∃ body : List Char, l.data = body ++ ['\n'] ∧ '\n' ∉ body

/-- A consumption record with a well-formed date and time whose period label
holds a line feed (the JSON string `"A\nB"`). -/
def newlineConsumption : Consumption := ⟨f1234, "2024/05/01", "13:00", "A\nB"⟩

/-! ## Theorems, part 1: the retrying transport -/

theorem bufferBody_fst (req : Request) : (bufferBody req).1 = req := by
  unfold bufferBody
  cases h : req.body <;> simp
  cases req
  simp_all

theorem bufferBody_snd (req : Request) (b : List Nat) (h : req.body = some b) :
    (bufferBody req).2 = b := by
  unfold bufferBody
  simp [h]

/-- Resetting the body to the buffered bytes gives the request back. -/
theorem resetBody_eq (req : Request) :
    (if req.body.isSome then { req with body := some (bufferBody req).2 } else req) = req := by
  cases req with
  | mk url body =>
    cases body <;> simp [bufferBody]

theorem shouldRetry_of_status (e : Option String) (r : Response)
    (h : retryableStatus r.statusCode) : shouldRetry e (some r) = true := by
  unfold retryableStatus at h
  unfold shouldRetry
  cases e <;> simp [h]

theorem shouldRetry_terminal (r : Response) (h : ¬ retryableStatus r.statusCode) :
    shouldRetry none (some r) = false := by
  unfold retryableStatus at h
  unfold shouldRetry
  simp [h]

/-- One iteration of the loop that retries. -/
theorem retryLoop_retry (t : Transport) (req : Request) (fuel retries : Nat) (e : Option String)
    (r : Response) (tr : List Event) (hs : retryableStatus r.statusCode)
    (hr : retries < retryCount) :
    retryLoop t (bufferBody req).2 (fuel + 1) req retries ⟨some r, e⟩ tr =
      retryLoop t (bufferBody req).2 fuel req (retries + 1) (t (retries + 1) req)
        (tr ++ retryEvents req retries r) := by
  rw [retryLoop]
  simp only [shouldRetry_of_status e r hs, hr, decide_True, Bool.and_self, if_true, resetBody_eq]
  congr 1
  unfold retryEvents
  cases r.body <;> simp

/-- The loop exits when the answer is not retryable. -/
theorem retryLoop_exit (t : Transport) (bb : List Nat) (req : Request) (fuel retries : Nat)
    (ans : Answer) (tr : List Event) (h : shouldRetry ans.err ans.resp = false) :
    retryLoop t bb (fuel + 1) req retries ans tr = some (Outcome.returned ans, tr) := by
  rw [retryLoop]
  simp [h]

/-- The loop exits when the retry budget is used up. -/
theorem retryLoop_budget (t : Transport) (bb : List Nat) (req : Request) (fuel retries : Nat)
    (ans : Answer) (tr : List Event) (h : retryCount ≤ retries) :
    retryLoop t bb (fuel + 1) req retries ans tr = some (Outcome.returned ans, tr) := by
  rw [retryLoop]
  have : ¬ retries < retryCount := by omega
  simp [this]

/-- With more fuel than retries left the loop never runs out of fuel. -/
theorem retryLoop_total (t : Transport) (bb : List Nat) :
    ∀ (fuel : Nat) (req : Request) (retries : Nat) (ans : Answer) (tr : List Event),
      retryCount ≤ fuel + retries →
        ∃ res, retryLoop t bb (fuel + 1) req retries ans tr = some res := by
  intro fuel
  induction fuel with
  | zero =>
    intro req retries ans tr h
    exact ⟨_, retryLoop_budget t bb req 0 retries ans tr (by omega)⟩
  | succ n ih =>
    intro req retries ans tr h
    rw [retryLoop]
    split
    · cases hresp : ans.resp with
      | none => exact ⟨_, rfl⟩
      | some resp => exact ih _ _ _ _ (by omega)
    · exact ⟨_, rfl⟩

/-- `RoundTrip` is total: the fuel of the model is never exhausted. -/
theorem RoundTrip_total (t : Transport) (req : Request) :
    ∃ res, RoundTrip t req = some res := by
  unfold RoundTrip
  exact retryLoop_total t _ retryCount _ _ _ _ (by omega)

theorem RoundTrip_eq (t : Transport) (req : Request) :
    RoundTrip t req =
      retryLoop t (bufferBody req).2 (retryCount + 1) req 0 (t 0 req) [Event.attempt req] := by
  have h := bufferBody_fst req
  unfold RoundTrip
  revert h
  cases bufferBody req with
  | mk a b => intro h; simp at h; subst h; rfl

theorem timeline_append (a b : List Event) : timeline (a ++ b) = timeline a ++ timeline b := by
  induction a with
  | nil => rfl
  | cons e es ih => cases e <;> simp [timeline, ih]

theorem attempts_append (a b : List Event) : attempts (a ++ b) = attempts a ++ attempts b := by
  induction a with
  | nil => rfl
  | cons e es ih => cases e <;> simp [attempts, ih]

theorem sleeps_append (a b : List Event) : sleeps (a ++ b) = sleeps a ++ sleeps b := by
  induction a with
  | nil => rfl
  | cons e es ih => cases e <;> simp [sleeps, ih]

theorem timeline_retryEvents (req : Request) (i : Nat) (r : Response) :
    timeline (retryEvents req i r) = [Event.sleep (2 ^ i * Second), Event.attempt req] := by
  unfold retryEvents backoff
  cases r.body <;> simp [timeline]

theorem attempts_retryEvents (req : Request) (i : Nat) (r : Response) :
    attempts (retryEvents req i r) = [req] := by
  unfold retryEvents
  cases r.body <;> simp [attempts]

theorem sleeps_retryEvents (req : Request) (i : Nat) (r : Response) :
    sleeps (retryEvents req i r) = [2 ^ i * Second] := by
  unfold retryEvents backoff
  cases r.body <;> simp [sleeps]

theorem not_retryable_200 : ¬ retryableStatus 200 := by decide

/-- C1. Retry until success: when the wrapped transport answers the first `k`
attempts (`1 ≤ k ≤ 3`) with statuses in {500, 502, 503, 504} and attempt `k+1`
with status 200, `RoundTrip` returns that 200 response with a nil error, has
called the transport exactly `k+1` times, and has slept `2^i` seconds before
retry `i` for `i = 0 .. k-1`; for `k = 3` that is 4 attempts and sleeps of 1s,
2s and 4s. -/
theorem C1_retry_until_success (t : Transport) (req : Request) (k : Nat) (ok : Response)
    (hk1 : 1 ≤ k) (hk3 : k ≤ 3)
    (hfail : ∀ i, i < k → ∃ r, t i req = ⟨some r, none⟩ ∧ retryableStatus r.statusCode)
    (hok : t k req = ⟨some ok, none⟩) (h200 : ok.statusCode = 200) :
    ∃ tr, RoundTrip t req = some (Outcome.returned ⟨some ok, none⟩, tr)
      ∧ attempts tr = List.replicate (k + 1) req
      ∧ sleeps tr = (List.range k).map (fun i => 2 ^ i * Second)
      ∧ timeline tr = retrySchedule req k
      ∧ (k = 3 → (attempts tr).length = 4
          ∧ sleeps tr = [1 * Second, 2 * Second, 4 * Second]) := by
  have hterm : shouldRetry (none : Option String) (some ok) = false :=
    shouldRetry_terminal ok (by rw [h200]; exact not_retryable_200)
  obtain ⟨r0, h0, hs0⟩ := hfail 0 (by omega)
  rw [RoundTrip_eq, h0]
  have hk : k = 1 ∨ k = 2 ∨ k = 3 := by omega
  rcases hk with rfl | rfl | rfl
  · rw [show retryCount + 1 = 3 + 1 from rfl,
      retryLoop_retry t req 3 0 none r0 _ hs0 (by decide), hok,
      retryLoop_exit t _ req 2 1 _ _ hterm]
    refine ⟨_, rfl, ?_, ?_, ?_, ?_⟩
    · simp only [attempts_append, attempts_retryEvents]; rfl
    · simp only [sleeps_append, sleeps_retryEvents]; rfl
    · simp only [timeline_append, timeline_retryEvents]; rfl
    · intro h; omega
  · obtain ⟨r1, h1, hs1⟩ := hfail 1 (by omega)
    rw [show retryCount + 1 = 3 + 1 from rfl,
      retryLoop_retry t req 3 0 none r0 _ hs0 (by decide), h1,
      retryLoop_retry t req 2 1 none r1 _ hs1 (by decide), hok,
      retryLoop_exit t _ req 1 2 _ _ hterm]
    refine ⟨_, rfl, ?_, ?_, ?_, ?_⟩
    · simp only [attempts_append, attempts_retryEvents]; rfl
    · simp only [sleeps_append, sleeps_retryEvents]; rfl
    · simp only [timeline_append, timeline_retryEvents]; rfl
    · intro h; omega
  · obtain ⟨r1, h1, hs1⟩ := hfail 1 (by omega)
    obtain ⟨r2, h2, hs2⟩ := hfail 2 (by omega)
    rw [show retryCount + 1 = 3 + 1 from rfl,
      retryLoop_retry t req 3 0 none r0 _ hs0 (by decide), h1,
      retryLoop_retry t req 2 1 none r1 _ hs1 (by decide), h2,
      retryLoop_retry t req 1 2 none r2 _ hs2 (by decide), hok,
      retryLoop_exit t _ req 0 3 _ _ hterm]
    refine ⟨_, rfl, ?_, ?_, ?_, ?_⟩
    · simp only [attempts_append, attempts_retryEvents]; rfl
    · simp only [sleeps_append, sleeps_retryEvents]; rfl
    · simp only [timeline_append, timeline_retryEvents]; rfl
    · intro _
      simp only [attempts_append, attempts_retryEvents, sleeps_append, sleeps_retryEvents]
      exact ⟨rfl, rfl⟩

theorem C1_retry_until_success_witness :
    ∃ tr, RoundTrip (flakyTransport 3) sampleRequest
        = some (Outcome.returned ⟨some ⟨200, "200 OK", some [116]⟩, none⟩, tr)
      ∧ attempts tr = List.replicate (3 + 1) sampleRequest
      ∧ sleeps tr = (List.range 3).map (fun i => 2 ^ i * Second)
      ∧ timeline tr = retrySchedule sampleRequest 3
      ∧ (3 = 3 → (attempts tr).length = 4
          ∧ sleeps tr = [1 * Second, 2 * Second, 4 * Second]) :=
  C1_retry_until_success (flakyTransport 3) sampleRequest 3 ⟨200, "200 OK", some [116]⟩
    (by decide) (by decide)
    (fun i hi => ⟨⟨503, "503 Service Unavailable", some [111]⟩, by simp [flakyTransport, hi],
      by decide⟩)
    (by simp [flakyTransport]) rfl

/-- C2. Non-retryable outcomes are terminal: when the first attempt yields a
response with a nil error whose status is outside {500, 502, 503, 504} (every
4xx status included), `RoundTrip` returns that response; its whole trace is
the single call of the wrapped transport, so there is no retry and no sleep. -/
theorem C2_non_retryable_terminal (t : Transport) (req : Request) (r : Response)
    (h0 : t 0 req = ⟨some r, none⟩)
    (hs : ¬ retryableStatus r.statusCode ∨ (400 ≤ r.statusCode ∧ r.statusCode < 500)) :
    RoundTrip t req = some (Outcome.returned ⟨some r, none⟩, [Event.attempt req])
      ∧ attempts [Event.attempt req] = [req]
      ∧ sleeps [Event.attempt req] = [] := by
  have hn : ¬ retryableStatus r.statusCode := by
    rcases hs with h | ⟨h1, h2⟩
    · exact h
    · unfold retryableStatus; omega
  rw [RoundTrip_eq, h0]
  exact ⟨retryLoop_exit t _ req retryCount 0 _ _ (shouldRetry_terminal r hn), rfl, rfl⟩

theorem C2_non_retryable_terminal_witness :
    RoundTrip (constTransport 404 "404 Not Found") sampleRequest
        = some (Outcome.returned ⟨some ⟨404, "404 Not Found", some []⟩, none⟩,
            [Event.attempt sampleRequest])
      ∧ attempts [Event.attempt sampleRequest] = [sampleRequest]
      ∧ sleeps [Event.attempt sampleRequest] = [] :=
  C2_non_retryable_terminal (constTransport 404 "404 Not Found") sampleRequest
    ⟨404, "404 Not Found", some []⟩ rfl (Or.inr (by decide))

/-- C3 (the code at the failing input). When the first attempt fails before
producing a response (nil response, non-nil error) `RoundTrip` sleeps one
second and then reads `resp.Body` of the nil response: it ends in a nil
pointer dereference, with one call of the wrapped transport and no retry, even
though the second attempt would have been answered with status 200. -/
theorem C3_transport_error_nil_deref :
    RoundTrip dialErrorTransport sampleRequest
      = some (Outcome.nilDeref, [Event.attempt sampleRequest, Event.sleep (1 * Second)]) := by
  rw [RoundTrip_eq]
  rfl

/-- The nil dereference happens for every request and every transport whose
first answer is a nil response with an error. -/
theorem RoundTrip_nil_response (t : Transport) (req : Request) (e : Option String)
    (h0 : t 0 req = ⟨none, e⟩) :
    RoundTrip t req = some (Outcome.nilDeref, [Event.attempt req, Event.sleep (1 * Second)]) := by
  rw [RoundTrip_eq, h0, retryLoop]
  cases e <;> rfl

/-- C4. Retry budget: when the wrapped transport keeps answering with statuses
in {500, 502, 503, 504}, `RoundTrip` returns the answer of the 4th attempt
after exactly 4 calls of the transport (1 initial, 3 retries, no 5th), having
slept 1s, 2s and 4s in that order, 7 seconds in total. -/
theorem C4_retry_budget (t : Transport) (req : Request)
    (hfail : ∀ i, i ≤ retryCount → ∃ r, (t i req).resp = some r ∧ retryableStatus r.statusCode) :
    ∃ tr, RoundTrip t req = some (Outcome.returned (t 3 req), tr)
      ∧ attempts tr = [req, req, req, req]
      ∧ sleeps tr = [1 * Second, 2 * Second, 4 * Second]
      ∧ (sleeps tr).sum = 7 * Second
      ∧ timeline tr = retrySchedule req 3 := by
  obtain ⟨r0, h0, hs0⟩ := hfail 0 (by decide)
  obtain ⟨r1, h1, hs1⟩ := hfail 1 (by decide)
  obtain ⟨r2, h2, hs2⟩ := hfail 2 (by decide)
  have e0 : t 0 req = ⟨some r0, (t 0 req).err⟩ := by rw [← h0]
  have e1 : t 1 req = ⟨some r1, (t 1 req).err⟩ := by rw [← h1]
  have e2 : t 2 req = ⟨some r2, (t 2 req).err⟩ := by rw [← h2]
  rw [RoundTrip_eq, e0, show retryCount + 1 = 3 + 1 from rfl,
    retryLoop_retry t req 3 0 _ r0 _ hs0 (by decide), e1,
    retryLoop_retry t req 2 1 _ r1 _ hs1 (by decide), e2,
    retryLoop_retry t req 1 2 _ r2 _ hs2 (by decide),
    retryLoop_budget t _ req 0 3 _ _ (by decide)]
  refine ⟨_, rfl, ?_, ?_⟩
  · simp only [attempts_append, attempts_retryEvents]; rfl
  · have hsl : sleeps ([Event.attempt req] ++ retryEvents req 0 r0 ++ retryEvents req 1 r1
        ++ retryEvents req 2 r2) = [1 * Second, 2 * Second, 4 * Second] := by
      simp only [sleeps_append, sleeps_retryEvents]; rfl
    refine ⟨hsl, ?_, ?_⟩
    · rw [hsl]
      simp only [List.sum_cons, List.sum_nil]
      omega
    · simp only [timeline_append, timeline_retryEvents]; rfl

theorem C4_retry_budget_witness :
    ∃ tr, RoundTrip (constTransport 502 "502 Bad Gateway") sampleRequest
        = some (Outcome.returned (constTransport 502 "502 Bad Gateway" 3 sampleRequest), tr)
      ∧ attempts tr = [sampleRequest, sampleRequest, sampleRequest, sampleRequest]
      ∧ sleeps tr = [1 * Second, 2 * Second, 4 * Second]
      ∧ (sleeps tr).sum = 7 * Second
      ∧ timeline tr = retrySchedule sampleRequest 3 :=
  C4_retry_budget (constTransport 502 "502 Bad Gateway") sampleRequest
    (fun _ _ => ⟨⟨502, "502 Bad Gateway", some []⟩, rfl, by decide⟩)

/-! ## Theorems, part 2: parsing and the calendar -/

theorem digitChar_cases (d : Nat) :
    digitChar d = '0' ∨ digitChar d = '1' ∨ digitChar d = '2' ∨ digitChar d = '3'
      ∨ digitChar d = '4' ∨ digitChar d = '5' ∨ digitChar d = '6' ∨ digitChar d = '7'
      ∨ digitChar d = '8' ∨ digitChar d = '9' := by
  unfold digitChar
  have h : d % 10 < 10 := Nat.mod_lt _ (by decide)
  generalize d % 10 = k at h
  interval_cases k <;> decide

theorem digitVal_digitChar (d : Nat) : digitVal (digitChar d) = ((d % 10 : Nat) : Int) := by
  unfold digitChar digitVal
  have h : d % 10 < 10 := Nat.mod_lt _ (by decide)
  generalize d % 10 = k at h
  interval_cases k <;> rfl

theorem isDigit_zero_digitChar (d : Nat) (rest : List Char) :
    isDigit (digitChar d :: rest) 0 = true := by
  rcases digitChar_cases d with h | h | h | h | h | h | h | h | h | h <;> rw [h] <;> rfl

theorem isDigit_one_digitChar (c : Char) (d : Nat) (rest : List Char) :
    isDigit (c :: digitChar d :: rest) 1 = true := by
  rcases digitChar_cases d with h | h | h | h | h | h | h | h | h | h <;> rw [h] <;> rfl

theorem getnum_pad (a b : Nat) (fixed : Bool) (rest : List Char) :
    getnum (digitChar a :: digitChar b :: rest) fixed
      = some ((((a % 10) * 10 + b % 10 : Nat) : Int), rest) := by
  unfold getnum
  simp [isDigit_zero_digitChar, isDigit_one_digitChar, digitVal_digitChar]

theorem leadingInt_digitChar (d : Nat) (rest : List Char) (x : Nat) (hx : x ≤ 999) :
    leadingInt (digitChar d :: rest) x = leadingInt rest (x * 10 + d % 10) := by
  have hv : (digitChar d).toNat - 48 = d % 10 := by
    unfold digitChar
    have h : d % 10 < 10 := Nat.mod_lt _ (by decide)
    generalize d % 10 = k at h
    interval_cases k <;> rfl
  have hr : ¬ (digitChar d < '0' ∨ digitChar d > '9') := by
    rcases digitChar_cases d with h | h | h | h | h | h | h | h | h | h <;> rw [h] <;> decide
  have hd : d % 10 < 10 := Nat.mod_lt _ (by decide)
  rw [leadingInt]
  rw [if_neg hr, if_neg (by omega), hv]
  simp only
  rw [if_neg (by omega)]

theorem atoi_pad4 (y : Nat) (hy : y ≤ 9999) : atoi (pad4 y) = some (y : Int) := by
  unfold atoi pad4
  have hm : digitChar (y / 1000) ≠ '-' ∧ digitChar (y / 1000) ≠ '+' := by
    rcases digitChar_cases (y / 1000) with h | h | h | h | h | h | h | h | h | h <;> rw [h] <;>
      decide
  have h0 : (0 * 10 + y / 1000 % 10) ≤ 999 := by omega
  have h1 : ((0 * 10 + y / 1000 % 10) * 10 + y / 100 % 10) ≤ 999 := by omega
  have h2 : (((0 * 10 + y / 1000 % 10) * 10 + y / 100 % 10) * 10 + y / 10 % 10) ≤ 999 := by omega
  have hval : ((((0 * 10 + y / 1000 % 10) * 10 + y / 100 % 10) * 10 + y / 10 % 10) * 10
      + y % 10) = y := by omega
  simp only [List.head?_cons, Option.some.injEq, hm.1, hm.2, or_self, decide_False,
    Bool.false_and, Bool.false_eq_true, if_false]
  rw [leadingInt_digitChar _ _ 0 (by omega), leadingInt_digitChar _ _ _ h0,
    leadingInt_digitChar _ _ _ h1, leadingInt_digitChar _ _ _ h2, hval, leadingInt]
  simp

theorem skip_nil (value : List Char) : skip value [] = some value := by
  cases value <;> rfl

theorem skip_char (p : Char) (rest : List Char) (hp : p ≠ ' ') :
    skip (p :: rest) [p] = some rest := by
  unfold skip
  simp only [List.length_singleton, skipLoop, hp, if_false, ne_eq, not_true_eq_false]

theorem cutspace_digitChar (d : Nat) (rest : List Char) :
    cutspace (digitChar d :: rest) = digitChar d :: rest := by
  rcases digitChar_cases d with h | h | h | h | h | h | h | h | h | h <;> rw [h] <;> rfl

theorem skip_space (d : Nat) (rest : List Char) :
    skip (' ' :: digitChar d :: rest) [' '] = some (digitChar d :: rest) := by
  unfold skip
  simp only [List.length_singleton, skipLoop, if_true, ne_eq, not_true_eq_false, if_false,
    cutspace, cutspace_digitChar]

theorem isLeap_iff (y : Nat) : isLeap (y : Int) = true ↔ leapYear y := by
  unfold isLeap leapYear
  simp only [Bool.and_eq_true, Bool.or_eq_true, beq_iff_eq, bne_iff_ne, ne_eq]
  omega

theorem daysIn_eq (y m : Nat) (hm1 : 1 ≤ m) (hm12 : m ≤ 12) :
    daysIn (m : Int) (y : Int) = (monthLength y m : Int) := by
  unfold daysIn monthLength
  by_cases hl : leapYear y
  · have hl2 := (isLeap_iff y).2 hl
    interval_cases m <;> simp [hl, hl2, daysBefore]
  · have hl2 : isLeap (y : Int) = false := by
      cases h : isLeap (y : Int)
      · rfl
      · exact absurd ((isLeap_iff y).1 h) hl
    interval_cases m <;> simp [hl, hl2, daysBefore]

theorem norm_id (hi lo base : Int) (h0 : 0 ≤ lo) (h1 : lo < base) : norm hi lo base = (hi, lo) := by
  unfold norm
  simp [not_lt.2 h0, not_le.2 h1]


/-- The count of whole years before `y`, in closed form. -/
theorem sum_yearLength (y : Nat) :
    ((List.range y).map yearLength).sum + (y + 99) / 100
      = 365 * y + (y + 3) / 4 + (y + 399) / 400 := by
  induction y with
  | zero => rfl
  | succ n ih =>
    rw [List.range_succ, List.map_append, List.sum_append]
    simp only [List.map_cons, List.map_nil, List.sum_cons, List.sum_nil]
    have hA : (n + 1 + 3) / 4 = (n + 3) / 4 + (if n % 4 = 0 then 1 else 0) := by
      split <;> omega
    have hB : (n + 1 + 99) / 100 = (n + 99) / 100 + (if n % 100 = 0 then 1 else 0) := by
      split <;> omega
    have hC : (n + 1 + 399) / 400 = (n + 399) / 400 + (if n % 400 = 0 then 1 else 0) := by
      split <;> omega
    have h1 : n % 400 = 0 → n % 100 = 0 := by omega
    have h2 : n % 100 = 0 → n % 4 = 0 := by omega
    rw [hA, hB, hC]
    generalize ((List.range n).map yearLength).sum = S at ih ⊢
    clear hA hB hC
    unfold yearLength leapYear
    by_cases c4 : n % 4 = 0 <;> by_cases c100 : n % 100 = 0 <;> by_cases c400 : n % 400 = 0 <;>
      simp only [c4, c100, c400, if_true, if_false, true_and, false_and, not_true_eq_false,
        not_false_eq_true, or_self, or_true, or_false, ne_eq] <;>
      omega


theorem toUint64_year (y : Nat) (hy : y ≤ 9999) :
    toUint64 (toInt64 (y : Int) - absoluteZeroYear) = y + 292277022399 := by
  unfold toUint64 toInt64 absoluteZeroYear
  omega

theorem year_decomp (y : Nat) :
    ∃ n a c e, y + 292277022399 = 400 * n + 100 * a + 4 * c + e ∧ a < 4 ∧ c < 25 ∧ e < 4 :=
  ⟨(y + 292277022399) / 400, (y + 292277022399) % 400 / 100, (y + 292277022399) % 100 / 4,
    (y + 292277022399) % 4, by omega, by omega, by omega, by omega⟩

/-- The cycle decomposition of `daysSinceEpoch` on a year count written as
`400 n + 100 a + 4 c + e`. -/
theorem cycles_eq (n a c e : Nat) (ha : a < 4) (hc : c < 25) (he : e < 4) :
    146097 * ((400 * n + 100 * a + 4 * c + e) / 400)
      + 36524 * (((400 * n + 100 * a + 4 * c + e)
          - 400 * ((400 * n + 100 * a + 4 * c + e) / 400)) / 100)
      + 1461 * ((((400 * n + 100 * a + 4 * c + e)
          - 400 * ((400 * n + 100 * a + 4 * c + e) / 400))
          - 100 * (((400 * n + 100 * a + 4 * c + e)
            - 400 * ((400 * n + 100 * a + 4 * c + e) / 400)) / 100)) / 4)
      + 365 * ((((400 * n + 100 * a + 4 * c + e)
          - 400 * ((400 * n + 100 * a + 4 * c + e) / 400))
          - 100 * (((400 * n + 100 * a + 4 * c + e)
            - 400 * ((400 * n + 100 * a + 4 * c + e) / 400)) / 100))
          - 4 * ((((400 * n + 100 * a + 4 * c + e)
            - 400 * ((400 * n + 100 * a + 4 * c + e) / 400))
            - 100 * (((400 * n + 100 * a + 4 * c + e)
              - 400 * ((400 * n + 100 * a + 4 * c + e) / 400)) / 100)) / 4))
      = 146097 * n + 36524 * a + 1461 * c + 365 * e := by
  have e0 : (400 * n + 100 * a + 4 * c + e) / 400 = n := by omega
  rw [e0]
  have e1 : 400 * n + 100 * a + 4 * c + e - 400 * n = 100 * a + 4 * c + e := by omega
  rw [e1]
  have e2 : (100 * a + 4 * c + e) / 100 = a := by omega
  rw [e2]
  have e3 : 100 * a + 4 * c + e - 100 * a = 4 * c + e := by omega
  rw [e3]
  have e4 : (4 * c + e) / 4 = c := by omega
  rw [e4]
  have e5 : 4 * c + e - 4 * c = e := by omega
  rw [e5]

theorem year_closed_form (y n a c e : Nat) (hy : y ≤ 9999)
    (hY : y + 292277022399 = 400 * n + 100 * a + 4 * c + e)
    (ha : a < 4) (hc : c < 25) (he : e < 4) :
    (146097 * n + 36524 * a + 1461 * c + 365 * e) % 18446744073709551616 + (y + 99) / 100
      = 106751990353566 + 365 * y + (y + 3) / 4 + (y + 399) / 400 := by
  have hj : (y + 399) / 400 = n - 730692555 := by omega
  have hl : (y + 99) / 100 = 4 * n + a - 2922770223 := by omega
  have hi : (y + 3) / 4 = 100 * n + 25 * a + c - 73069255599 := by omega
  have hn : 730692555 ≤ n ∧ n ≤ 730692580 := by omega
  have hk : (146097 * n + 36524 * a + 1461 * c + 365 * e) % 18446744073709551616
      = 146097 * n + 36524 * a + 1461 * c + 365 * e := Nat.mod_eq_of_lt (by omega)
  rw [hj, hl, hi, hk]
  omega

theorem daysSinceEpoch_def (year : Int) :
    daysSinceEpoch year =
      (146097 * (toUint64 (toInt64 year - absoluteZeroYear) / 400)
      + 36524 * ((toUint64 (toInt64 year - absoluteZeroYear)
          - 400 * (toUint64 (toInt64 year - absoluteZeroYear) / 400)) / 100)
      + 1461 * (((toUint64 (toInt64 year - absoluteZeroYear)
          - 400 * (toUint64 (toInt64 year - absoluteZeroYear) / 400))
          - 100 * ((toUint64 (toInt64 year - absoluteZeroYear)
            - 400 * (toUint64 (toInt64 year - absoluteZeroYear) / 400)) / 100)) / 4)
      + 365 * (((toUint64 (toInt64 year - absoluteZeroYear)
          - 400 * (toUint64 (toInt64 year - absoluteZeroYear) / 400))
          - 100 * ((toUint64 (toInt64 year - absoluteZeroYear)
            - 400 * (toUint64 (toInt64 year - absoluteZeroYear) / 400)) / 100))
          - 4 * (((toUint64 (toInt64 year - absoluteZeroYear)
            - 400 * (toUint64 (toInt64 year - absoluteZeroYear) / 400))
            - 100 * ((toUint64 (toInt64 year - absoluteZeroYear)
              - 400 * (toUint64 (toInt64 year - absoluteZeroYear) / 400)) / 100)) / 4)))
        % 18446744073709551616 := rfl

/-- Go's `daysSinceEpoch` in closed form, for four-digit years. -/
theorem daysSinceEpoch_eq (y : Nat) (hy : y ≤ 9999) :
    daysSinceEpoch (y : Int) + (y + 99) / 100
      = 106751990353566 + 365 * y + (y + 3) / 4 + (y + 399) / 400 := by
  obtain ⟨n, a, c, e, hY, ha, hc, he⟩ := year_decomp y
  rw [daysSinceEpoch_def, toUint64_year y hy, hY, cycles_eq n a c e ha hc he]
  exact year_closed_form y n a c e hy hY ha hc he


theorem monthSum_eq (y m : Nat) (hm1 : 1 ≤ m) (hm12 : m ≤ 12) :
    (((List.range (m - 1)).map (fun j => monthLength y (j + 1))).sum : Int)
      = daysBefore.getD ((m : Int) - 1).toNat 0
        + (if isLeap (y : Int) && decide ((m : Int) ≥ 3) then 1 else 0) := by
  by_cases hl : leapYear y
  · have hl2 := (isLeap_iff y).2 hl
    interval_cases m <;> simp [hl, hl2, daysBefore, monthLength, List.range_succ]
  · have hl2 : isLeap (y : Int) = false := by
      cases h : isLeap (y : Int)
      · rfl
      · exact absurd ((isLeap_iff y).1 h) hl
    interval_cases m <;> simp [hl, hl2, daysBefore, monthLength, List.range_succ]

theorem daysFromYearZero_epoch : daysFromYearZero 1970 1 1 = 719528 := by
  have h := sum_yearLength 1970
  unfold daysFromYearZero
  simp only [Nat.sub_self, List.range_zero, List.map_nil, List.sum_nil, Nat.add_zero]
  omega

theorem daysBefore_bound (m : Nat) (hm1 : 1 ≤ m) (hm12 : m ≤ 12) :
    ∃ b : Nat, b ≤ 334 ∧ daysBefore.getD ((m : Int) - 1).toNat 0 = (b : Int) := by
  interval_cases m
  · exact ⟨0, by omega, rfl⟩
  · exact ⟨31, by omega, rfl⟩
  · exact ⟨59, by omega, rfl⟩
  · exact ⟨90, by omega, rfl⟩
  · exact ⟨120, by omega, rfl⟩
  · exact ⟨151, by omega, rfl⟩
  · exact ⟨181, by omega, rfl⟩
  · exact ⟨212, by omega, rfl⟩
  · exact ⟨243, by omega, rfl⟩
  · exact ⟨273, by omega, rfl⟩
  · exact ⟨304, by omega, rfl⟩
  · exact ⟨334, by omega, rfl⟩

theorem toUint64_natCast (n : Nat) (h : n < 18446744073709551616) : toUint64 (n : Int) = n := by
  unfold toUint64
  omega

/-- The two signed conversions of `time.Date` on an `abs` that did not wrap. -/
theorem unix_arith_core (S b l d hh mm : Nat)
    (hS : S ≤ 3652500) (hb : b ≤ 334) (hl : l ≤ 1) (hd1 : 1 ≤ d) (hd : d ≤ 31)
    (hh23 : hh ≤ 23) (hmm : mm ≤ 59) :
    toInt64 (toInt64 (((106751990353566 + S + b + l + (d - 1)) * 86400
        + (hh * 3600 + mm * 60) : Nat) : Int) + absoluteToUnix)
      = (((S + (b + l) + (d - 1) : Nat) : Int) - (719528 : Nat)) * 86400 + (hh : Int) * 3600
          + (mm : Int) * 60 - 0 := by
  unfold toInt64 absoluteToUnix
  omega

/-- The arithmetic of `time.Date` from the day count on: the unsigned wrap in
`abs` and the two signed conversions cancel. -/
theorem unix_arith (E S M b l d hh mm : Nat) (hE : E = 106751990353566 + S)
    (hS : S ≤ 3652500) (hM : M = b + l) (hb : b ≤ 334) (hl : l ≤ 1) (hd1 : 1 ≤ d) (hd : d ≤ 31)
    (hh23 : hh ≤ 23) (hmm : mm ≤ 59) :
    toInt64 (toInt64 ((((((E + toUint64 (b : Int)) % 18446744073709551616 + l)
        % 18446744073709551616 + toUint64 ((d : Int) - 1)) % 18446744073709551616 * 86400
        % 18446744073709551616 + toUint64 ((hh : Int) * 3600 + (mm : Int) * 60 + 0))
        % 18446744073709551616 : Nat) : Int) + absoluteToUnix)
      = (((S + M + (d - 1) : Nat) : Int) - (719528 : Nat)) * 86400 + (hh : Int) * 3600
          + (mm : Int) * 60 - 0 := by
  subst hE hM
  have h1 : toUint64 (b : Int) = b := toUint64_natCast b (by omega)
  have h2 : toUint64 ((d : Int) - 1) = d - 1 := by
    have e : (d : Int) - 1 = ((d - 1 : Nat) : Int) := by omega
    rw [e]
    exact toUint64_natCast _ (by omega)
  have h3 : toUint64 ((hh : Int) * 3600 + (mm : Int) * 60 + 0) = hh * 3600 + mm * 60 := by
    have e : (hh : Int) * 3600 + (mm : Int) * 60 + 0 = ((hh * 3600 + mm * 60 : Nat) : Int) := by
      omega
    rw [e]
    exact toUint64_natCast _ (by omega)
  rw [h1, h2, h3]
  have h4 : (106751990353566 + S + b) % 18446744073709551616 = 106751990353566 + S + b :=
    Nat.mod_eq_of_lt (by omega)
  rw [h4]
  have h5 : (106751990353566 + S + b + l) % 18446744073709551616 = 106751990353566 + S + b + l :=
    Nat.mod_eq_of_lt (by omega)
  rw [h5]
  have h6 : (106751990353566 + S + b + l + (d - 1)) % 18446744073709551616
      = 106751990353566 + S + b + l + (d - 1) := Nat.mod_eq_of_lt (by omega)
  rw [h6]
  have h7 : (106751990353566 + S + b + l + (d - 1)) * 86400 % 18446744073709551616
      = (106751990353566 + S + b + l + (d - 1)) * 86400 := Nat.mod_eq_of_lt (by omega)
  rw [h7]
  have h8 : ((106751990353566 + S + b + l + (d - 1)) * 86400 + (hh * 3600 + mm * 60))
      % 18446744073709551616
      = (106751990353566 + S + b + l + (d - 1)) * 86400 + (hh * 3600 + mm * 60) :=
    Nat.mod_eq_of_lt (by omega)
  rw [h8]
  exact unix_arith_core S b l d hh mm hS hb hl hd1 hd hh23 hmm

/-- Go's `time.Date` in UTC on a valid civil date and time of day is the
count of seconds since 1970-01-01 00:00 obtained by counting days. -/
theorem Date_utc (y m d hh mm : Nat) (hv : validDate y m d) (ht : validTime hh mm) :
    Date y m d hh mm 0 0 UTC = ⟨civilEpochSeconds 0 y m d hh mm, UTC⟩ := by
  obtain ⟨hy, hm1, hm12, hd1, hdm⟩ := hv
  obtain ⟨hh23, hmm⟩ := ht
  have hd31 : d ≤ 31 := by
    have : monthLength y m ≤ 31 := by
      unfold monthLength
      split
      · split <;> omega
      · split <;> omega
    omega
  unfold Date
  have n1 := norm_id y ((m : Int) - 1) 12 (by omega) (by omega)
  have n2 := norm_id 0 0 1000000000 (by omega) (by omega)
  have n3 := norm_id mm 0 60 (by omega) (by omega)
  have n4 := norm_id hh mm 60 (by omega) (by omega)
  have n5 := norm_id d hh 24 (by omega) (by omega)
  simp only [n1, n2, n3, n4, n5]
  have hoff : UTC.offset = 0 := rfl
  simp only [hoff, ne_eq, not_true_eq_false, if_false, sub_add_cancel]
  refine congrArg (fun u => Time.mk u UTC) ?_
  obtain ⟨b, hb, hbe⟩ := daysBefore_bound m hm1 hm12
  have hms := monthSum_eq y m hm1 hm12
  rw [hbe] at hms ⊢
  have hE : daysSinceEpoch (y : Int) = 106751990353566 + ((List.range y).map yearLength).sum := by
    have h1 := daysSinceEpoch_eq y hy
    have h2 := sum_yearLength y
    omega
  have hS : ((List.range y).map yearLength).sum ≤ 3652500 := by
    have h2 := sum_yearLength y
    omega
  unfold civilEpochSeconds civilEpochDays
  rw [daysFromYearZero_epoch]
  unfold daysFromYearZero
  by_cases hc : (isLeap (y : Int) && decide ((m : Int) ≥ 3)) = true
  · simp only [hc, if_true] at hms ⊢
    exact unix_arith _ _ _ b 1 d hh mm hE hS (by exact_mod_cast hms) hb (by omega) hd1 hd31
      hh23 hmm
  · simp only [hc, if_false] at hms ⊢
    have := unix_arith _ _ _ b 0 d hh mm hE hS (by exact_mod_cast hms) hb (by omega) hd1 hd31
      hh23 hmm
    simpa using this


theorem parseLongYear_pad4 (y : Nat) (hy : y ≤ 9999) (rest : List Char) :
    parseLongYear (pad4 y ++ rest) = some ((y : Int), rest) := by
  have ha := atoi_pad4 y hy
  unfold parseLongYear
  unfold pad4 at ha ⊢
  have hd : isDigit ([digitChar (y / 1000), digitChar (y / 100), digitChar (y / 10), digitChar y]
      ++ rest) 0 = true := isDigit_zero_digitChar _ _
  rw [hd]
  simp [ha]

theorem two_digits (n : Nat) (h : n ≤ 99) : (((n / 10 % 10) * 10 + n % 10 : Nat) : Int) = n := by
  omega

theorem parseZeroMonth_pad2 (m : Nat) (hm1 : 1 ≤ m) (hm12 : m ≤ 12) (rest : List Char) :
    parseZeroMonth (pad2 m ++ rest) = some ((m : Int), rest) := by
  unfold parseZeroMonth pad2
  simp only [List.cons_append, List.nil_append, getnum_pad, two_digits m (by omega)]
  rw [if_neg (by omega)]

theorem parseZeroDay_pad2 (d : Nat) (hd : d ≤ 99) (rest : List Char) :
    parseZeroDay (pad2 d ++ rest) = some ((d : Int), rest) := by
  unfold parseZeroDay pad2
  simp only [List.cons_append, List.nil_append, getnum_pad, two_digits d hd]

theorem parseHour_pad2 (hh : Nat) (h : hh ≤ 23) (rest : List Char) :
    parseHour (pad2 hh ++ rest) = some ((hh : Int), rest) := by
  unfold parseHour pad2
  simp only [List.cons_append, List.nil_append, getnum_pad, two_digits hh (by omega)]
  rw [if_neg (by omega)]

theorem parseZeroMinute_pad2 (mm : Nat) (h : mm ≤ 59) (rest : List Char) :
    parseZeroMinute (pad2 mm ++ rest) = some ((mm : Int), rest) := by
  unfold parseZeroMinute pad2
  simp only [List.cons_append, List.nil_append, getnum_pad, two_digits mm (by omega)]
  rw [if_neg (by omega)]

theorem monthLength_le (y m : Nat) : monthLength y m ≤ 31 := by
  unfold monthLength
  split
  · split <;> omega
  · split <;> omega

/-- `time.parse` accepts every well-formed date and time and returns the
`time.Date` of its fields. -/
theorem parse_wellFormed (loc locl : Location) (y m d hh mm : Nat) (hv : validDate y m d)
    (ht : validTime hh mm) :
    parse (pad4 y ++ '/' :: (pad2 m ++ '/' :: (pad2 d ++ ' ' :: (pad2 hh ++ ':' :: pad2 mm))))
        loc locl
      = some (Date y m d hh mm 0 0 loc) := by
  obtain ⟨hy, hm1, hm12, hd1, hdm⟩ := hv
  obtain ⟨hh23, hmm⟩ := ht
  have hd31 : d ≤ 31 := le_trans hdm (monthLength_le y m)
  have hdays : ¬ ((d : Int) < 1 ∨ (d : Int) > daysIn (m : Int) (y : Int)) := by
    rw [daysIn_eq y m hm1 hm12]
    omega
  have hmin := parseZeroMinute_pad2 mm hmm []
  rw [List.append_nil] at hmin
  have hsp : skip (' ' :: (pad2 hh ++ ':' :: pad2 mm)) [' ']
      = some (pad2 hh ++ ':' :: pad2 mm) := skip_space _ _
  unfold parse
  simp only [skip_nil, Option.bind_eq_bind, Option.some_bind, parseLongYear_pad4 y hy,
    skip_char '/' _ (by decide), parseZeroMonth_pad2 m hm1 hm12,
    parseZeroDay_pad2 d (by omega), hsp, parseHour_pad2 hh hh23,
    skip_char ':' _ (by decide), hmin]
  unfold parseFinish
  rw [if_neg (by simp), if_neg hdays]

theorem dateTime_data (y m d hh mm : Nat) :
    (dateString y m d ++ " " ++ timeString hh mm).data
      = pad4 y ++ '/' :: (pad2 m ++ '/' :: (pad2 d ++ ' ' :: (pad2 hh ++ ':' :: pad2 mm))) := by
  simp [dateString, timeString]

/-- `time.Parse` on a well-formed date and time of day: the seconds from the
epoch to that date and time read in UTC, whatever the zone of the run. -/
theorem Parse_wellFormed (locl : Location) (y m d hh mm : Nat) (hv : validDate y m d)
    (ht : validTime hh mm) :
    Parse (dateString y m d ++ " " ++ timeString hh mm) locl
      = some ⟨civilEpochSeconds 0 y m d hh mm, UTC⟩ := by
  unfold Parse
  rw [dateTime_data, parse_wellFormed UTC locl y m d hh mm hv ht, Date_utc y m d hh mm hv ht]


/-! ## Theorems, part 3: the record transformers -/

theorem Sprintf_consumption (cups period : String) (f : Float64) (unix : Int) :
    Sprintf "datadis_consumption,cups=%s,period=%s consumption=%.3f %v\n"
        [Arg.str cups, Arg.str period, Arg.float f, Arg.int unix]
      = some ("datadis_consumption,cups=" ++ cups ++ ",period=" ++ period
          ++ " consumption=" ++ String.mk (formatFloat f 3)
          ++ " " ++ String.mk (formatInt unix) ++ "\n") := by
  unfold Sprintf
  simp [SprintfChars, String.ext_iff]

theorem Sprintf_power (cups period : String) (f : Float64) (unix : Int) :
    Sprintf "datadis_power,cups=%s,period=%s max_power=%.3f %v\n"
        [Arg.str cups, Arg.str period, Arg.float f, Arg.int unix]
      = some ("datadis_power,cups=" ++ cups ++ ",period=" ++ period
          ++ " max_power=" ++ String.mk (formatFloat f 3)
          ++ " " ++ String.mk (formatInt unix) ++ "\n") := by
  unfold Sprintf
  simp [SprintfChars, String.ext_iff]

/-- The consumption loop body: it fails exactly when the timestamp does, and
otherwise yields the line of the specification. -/
theorem consumptionLine_eq (config : Config) (locl : Location) (stat : Consumption) :
    consumptionLine config locl stat
      = (consumptionTimestamp locl stat).map (consumptionLineText config stat) := by
  unfold consumptionLine
  cases h : consumptionTimestamp locl stat with
  | error e => rfl
  | ok unix =>
    simp only [Sprintf_consumption]
    rfl

/-- The power loop body: it fails exactly when the timestamp does, and
otherwise yields the line of the specification. -/
theorem powerLine_eq (config : Config) (locl : Location) (stat : Power) :
    powerLine config locl stat
      = (powerTimestamp locl stat).map (powerLineText config stat) := by
  unfold powerLine
  cases h : powerTimestamp locl stat with
  | error e => rfl
  | ok unix =>
    simp only [Sprintf_power]
    rfl

theorem digitChar_toNat (d : Nat) : (digitChar d).toNat = 48 + d % 10 := by
  unfold digitChar
  have h : d % 10 < 10 := Nat.mod_lt _ (by decide)
  generalize d % 10 = k at h
  interval_cases k <;> rfl

theorem timeString_ne_24 (hh mm : Nat) (h : hh ≤ 23) : timeString hh mm ≠ "24:00" := by
  intro he
  have h2 := congrArg String.data he
  simp only [timeString, pad2, List.cons_append, List.nil_append] at h2
  have ha : digitChar (hh / 10) = '2' := (List.cons.inj h2).1
  have hb : digitChar hh = '4' := (List.cons.inj (List.cons.inj h2).2).1
  have ha2 := congrArg Char.toNat ha
  have hb2 := congrArg Char.toNat hb
  rw [digitChar_toNat] at ha2 hb2
  have e1 : ('2' : Char).toNat = 50 := rfl
  have e2 : ('4' : Char).toNat = 52 := rfl
  omega

theorem normalizeTime_timeString (hh mm : Nat) (h : hh ≤ 23) :
    normalizeTime (timeString hh mm) = timeString hh mm := by
  unfold normalizeTime
  rw [if_neg (timeString_ne_24 hh mm h)]

theorem normalizeTime_24 : normalizeTime "24:00" = timeString 0 0 := by decide

/-- The timestamp of a consumption record with a well-formed date and time. -/
theorem consumptionTimestamp_wellFormed (locl : Location) (stat : Consumption)
    (y m d hh mm : Nat) (hv : validDate y m d) (ht : validTime hh mm)
    (hdate : stat.Date = dateString y m d)
    (htime : stat.Hour = timeString hh mm ∨ (stat.Hour = "24:00" ∧ hh = 0 ∧ mm = 0)) :
    consumptionTimestamp locl stat = .ok (civilEpochSeconds 0 y m d hh mm) := by
  have hn : normalizeTime stat.Hour = timeString hh mm := by
    rcases htime with h | ⟨h, rfl, rfl⟩
    · rw [h]; exact normalizeTime_timeString hh mm ht.1
    · rw [h]; exact normalizeTime_24
  unfold consumptionTimestamp
  simp only [hn, hdate, Parse_wellFormed locl y m d hh mm hv ht]
  rfl

/-- The timestamp of a power record with a well-formed date and time. -/
theorem powerTimestamp_wellFormed (locl : Location) (stat : Power)
    (y m d hh mm : Nat) (hv : validDate y m d) (ht : validTime hh mm)
    (hdate : stat.Date = dateString y m d)
    (htime : stat.Time = timeString hh mm ∨ (stat.Time = "24:00" ∧ hh = 0 ∧ mm = 0)) :
    powerTimestamp locl stat = .ok (civilEpochSeconds 0 y m d hh mm) := by
  have hn : normalizeTime stat.Time = timeString hh mm := by
    rcases htime with h | ⟨h, rfl, rfl⟩
    · rw [h]; exact normalizeTime_timeString hh mm ht.1
    · rw [h]; exact normalizeTime_24
  unfold powerTimestamp
  simp only [hn, hdate, Parse_wellFormed locl y m d hh mm hv ht]
  rfl


/-- C5 (the claim as stated fails). The claim reads the timestamp in the zone
of the run; in a zone two hours east of UTC the record of 2024/05/01 13:00
gets 1714568400 (13:00 UTC) and not 1714561200 (13:00 in that zone). -/
theorem C5_local_zone_counterexample :
    ¬ (∀ (locl : Location) (stat : Consumption) (y m d hh mm : Nat),
        validDate y m d → validTime hh mm → stat.Date = dateString y m d →
        stat.Hour = timeString hh mm →
        consumptionTimestamp locl stat = .ok (civilEpochSeconds locl.offset y m d hh mm)) := by
  intro h
  have h1 := h CEST sampleConsumption 2024 5 1 13 0 (by decide) (by decide) (by decide)
    (by decide)
  rw [consumptionTimestamp_wellFormed CEST sampleConsumption 2024 5 1 13 0 (by decide)
    (by decide) (by decide) (Or.inl (by decide))] at h1
  have h2 := Except.ok.inj h1
  unfold civilEpochSeconds CEST at h2
  simp only at h2
  omega

/-- C5 (amended). For every consumption and power record whose date is a
well-formed `YYYY/MM/DD` and whose time is a well-formed `HH:MM` or `24:00`
(read as `00:00`), the timestamp written in the output line is the Unix epoch
second count of that date and time read in UTC, whatever the zone of the run. -/
theorem C5_timestamp_is_utc (config : Config) (locl : Location) (date time : String)
    (y m d hh mm : Nat) (hv : validDate y m d) (ht : validTime hh mm)
    (hdate : date = dateString y m d)
    (htime : time = timeString hh mm ∨ (time = "24:00" ∧ hh = 0 ∧ mm = 0))
    (stat : Consumption) (p : Power) (hsd : stat.Date = date) (hsh : stat.Hour = time)
    (hpd : p.Date = date) (hpt : p.Time = time) :
    consumptionTimestamp locl stat = .ok (civilEpochSeconds 0 y m d hh mm)
      ∧ consumptionLine config locl stat
          = .ok (consumptionLineText config stat (civilEpochSeconds 0 y m d hh mm))
      ∧ powerTimestamp locl p = .ok (civilEpochSeconds 0 y m d hh mm)
      ∧ powerLine config locl p
          = .ok (powerLineText config p (civilEpochSeconds 0 y m d hh mm)) := by
  have hc := consumptionTimestamp_wellFormed locl stat y m d hh mm hv ht (hsd.trans hdate)
    (by rw [hsh]; exact htime)
  have hp := powerTimestamp_wellFormed locl p y m d hh mm hv ht (hpd.trans hdate)
    (by rw [hpt]; exact htime)
  refine ⟨hc, ?_, hp, ?_⟩
  · rw [consumptionLine_eq, hc]; rfl
  · rw [powerLine_eq, hp]; rfl

theorem C5_timestamp_is_utc_witness :
    consumptionTimestamp CEST sampleConsumption = .ok (civilEpochSeconds 0 2024 5 1 13 0)
      ∧ consumptionLine sampleConfig CEST sampleConsumption
          = .ok (consumptionLineText sampleConfig sampleConsumption
              (civilEpochSeconds 0 2024 5 1 13 0))
      ∧ powerTimestamp CEST { samplePower with Date := "2024/05/01", Time := "13:00" }
          = .ok (civilEpochSeconds 0 2024 5 1 13 0)
      ∧ powerLine sampleConfig CEST { samplePower with Date := "2024/05/01", Time := "13:00" }
          = .ok (powerLineText sampleConfig
              { samplePower with Date := "2024/05/01", Time := "13:00" }
              (civilEpochSeconds 0 2024 5 1 13 0)) :=
  C5_timestamp_is_utc sampleConfig CEST "2024/05/01" "13:00" 2024 5 1 13 0 (by decide)
    (by decide) (by decide) (Or.inl (by decide)) sampleConsumption
    { samplePower with Date := "2024/05/01", Time := "13:00" } rfl rfl rfl rfl

/-- The epoch second count of the concrete scenario, 2024-05-01 13:00 UTC. -/
theorem civilEpochSeconds_sample : civilEpochSeconds 0 2024 5 1 13 0 = 1714568400 := by
  have h := sum_yearLength 2024
  unfold civilEpochSeconds civilEpochDays
  rw [daysFromYearZero_epoch]
  unfold daysFromYearZero
  have hm : ((List.range (5 - 1)).map (fun j => monthLength 2024 (j + 1))).sum = 121 := by
    decide
  rw [hm]
  omega


/-- C8. Midnight normalization: for every date string, a record labelled
`24:00` gets the same timestamp (or the same failure) as the record labelled
`00:00` on that date, for consumption records (`hour`) and power records
(`time`); when the date is well-formed that timestamp is midnight at the
start of the date, not midnight of the following day. -/
theorem C8_midnight_normalization (locl : Location) (date : String) (stat : Consumption)
    (p : Power) (y m d : Nat) (hv : validDate y m d) :
    consumptionTimestamp locl { stat with Date := date, Hour := "24:00" }
        = consumptionTimestamp locl { stat with Date := date, Hour := "00:00" }
      ∧ powerTimestamp locl { p with Date := date, Time := "24:00" }
        = powerTimestamp locl { p with Date := date, Time := "00:00" }
      ∧ (date = dateString y m d →
          consumptionTimestamp locl { stat with Date := date, Hour := "24:00" }
              = .ok (civilEpochDays y m d * 86400)
            ∧ powerTimestamp locl { p with Date := date, Time := "24:00" }
              = .ok (civilEpochDays y m d * 86400)
            ∧ civilEpochDays y m d * 86400 ≠ (civilEpochDays y m d + 1) * 86400) := by
  refine ⟨rfl, rfl, ?_⟩
  intro hd
  have hc := consumptionTimestamp_wellFormed locl { stat with Date := date, Hour := "24:00" }
    y m d 0 0 hv (by decide) hd (Or.inr ⟨rfl, rfl, rfl⟩)
  have hp := powerTimestamp_wellFormed locl { p with Date := date, Time := "24:00" }
    y m d 0 0 hv (by decide) hd (Or.inr ⟨rfl, rfl, rfl⟩)
  have e : civilEpochSeconds 0 y m d 0 0 = civilEpochDays y m d * 86400 := by
    unfold civilEpochSeconds
    omega
  rw [e] at hc hp
  exact ⟨hc, hp, by omega⟩

theorem C8_midnight_normalization_witness :
    consumptionTimestamp CEST { sampleConsumption with Date := "2024/02/29", Hour := "24:00" }
        = consumptionTimestamp CEST
            { sampleConsumption with Date := "2024/02/29", Hour := "00:00" }
      ∧ powerTimestamp CEST { samplePower with Date := "2024/02/29", Time := "24:00" }
        = powerTimestamp CEST { samplePower with Date := "2024/02/29", Time := "00:00" }
      ∧ ("2024/02/29" = dateString 2024 2 29 →
          consumptionTimestamp CEST
              { sampleConsumption with Date := "2024/02/29", Hour := "24:00" }
              = .ok (civilEpochDays 2024 2 29 * 86400)
            ∧ powerTimestamp CEST { samplePower with Date := "2024/02/29", Time := "24:00" }
              = .ok (civilEpochDays 2024 2 29 * 86400)
            ∧ civilEpochDays 2024 2 29 * 86400 ≠ (civilEpochDays 2024 2 29 + 1) * 86400) :=
  C8_midnight_normalization CEST "2024/02/29" sampleConsumption samplePower 2024 2 29
    (by decide)

/-- C9. Period-label mapping of consumption records: the period written in
the output line is `1` for `PUNTA`, `2` for `LLANO`, `3` for `VALLE`, and the
label itself for every other label; the label never causes a failure (the
line fails exactly when its timestamp does, and the timestamp does not depend
on the label). -/
theorem C9_period_mapping (config : Config) (locl : Location) (stat : Consumption)
    (other : String) (ho : other ≠ "PUNTA" ∧ other ≠ "LLANO" ∧ other ≠ "VALLE") :
    mapPeriod "PUNTA" = "1" ∧ mapPeriod "LLANO" = "2" ∧ mapPeriod "VALLE" = "3"
      ∧ mapPeriod other = other
      ∧ consumptionLine config locl stat
          = (consumptionTimestamp locl stat).map (fun unix =>
              "datadis_consumption,cups=" ++ config.Cups ++ ",period=" ++ mapPeriod stat.Period
                ++ " consumption=" ++ String.mk (formatFloat stat.MeasureMagnitudeActive 3)
                ++ " " ++ String.mk (formatInt unix) ++ "\n")
      ∧ consumptionTimestamp locl { stat with Period := other }
          = consumptionTimestamp locl stat := by
  refine ⟨by decide, by decide, by decide, ?_, consumptionLine_eq config locl stat, rfl⟩
  unfold mapPeriod
  rw [if_neg ho.1, if_neg ho.2.1, if_neg ho.2.2]

theorem C9_period_mapping_witness :
    mapPeriod "PUNTA" = "1" ∧ mapPeriod "LLANO" = "2" ∧ mapPeriod "VALLE" = "3"
      ∧ mapPeriod "OTRO" = "OTRO"
      ∧ consumptionLine sampleConfig UTC sampleConsumption
          = (consumptionTimestamp UTC sampleConsumption).map (fun unix =>
              "datadis_consumption,cups=" ++ sampleConfig.Cups ++ ",period="
                ++ mapPeriod sampleConsumption.Period
                ++ " consumption="
                ++ String.mk (formatFloat sampleConsumption.MeasureMagnitudeActive 3)
                ++ " " ++ String.mk (formatInt unix) ++ "\n")
      ∧ consumptionTimestamp UTC { sampleConsumption with Period := "OTRO" }
          = consumptionTimestamp UTC sampleConsumption :=
  C9_period_mapping sampleConfig UTC sampleConsumption "OTRO" (by decide)

theorem distributorCheck_match (config : Config) (errors : List DistributorError)
    (h : ∃ e ∈ errors, e.Code = config.DistributorCode) :
    ∃ e ∈ errors, e.Code = config.DistributorCode
      ∧ distributorCheck config errors = some (Fatal.distributor e.ErrorCode e.ErrorDescription) := by
  induction errors with
  | nil => obtain ⟨e, he, _⟩ := h; cases he
  | cons x xs ih =>
    by_cases hx : x.Code = config.DistributorCode
    · exact ⟨x, List.mem_cons_self _ _, hx, by simp [distributorCheck, hx]⟩
    · obtain ⟨e, he, hc⟩ := h
      have hxs : ∃ e ∈ xs, e.Code = config.DistributorCode := by
        rcases List.mem_cons.1 he with rfl | he'
        · exact absurd hc hx
        · exact ⟨e, he', hc⟩
      obtain ⟨e', he', hc', hd'⟩ := ih hxs
      exact ⟨e', List.mem_cons_of_mem _ he', hc', by simp [distributorCheck, hx, hd']⟩

theorem distributorCheck_none (config : Config) (errors : List DistributorError)
    (h : ∀ e ∈ errors, e.Code ≠ config.DistributorCode) :
    distributorCheck config errors = none := by
  induction errors with
  | nil => rfl
  | cons x xs ih =>
    have hx : x.Code ≠ config.DistributorCode := h x (List.mem_cons_self _ _)
    simp only [distributorCheck, hx, if_false]
    exact ih (fun e he => h e (List.mem_cons_of_mem _ he))

/-- C10. Distributor error short-circuits: when the `distributorError` list of
a decoded power response has an entry whose code is the configured
distributor code, the power task ends the process with that entry's error
before its record loop, so it writes nothing to the batch whatever `maxPower`
holds; when no entry matches, the check lets the task go on to its record
loop. -/
theorem C10_distributor_error (config : Config) (locl : Location) (power power2 : PowerResponse)
    (hmatch : ∃ e ∈ power.DistributorError, e.Code = config.DistributorCode)
    (hnone : ∀ e ∈ power2.DistributorError, e.Code ≠ config.DistributorCode) :
    (powerTask config locl power).written = []
      ∧ (∃ e ∈ power.DistributorError, e.Code = config.DistributorCode
          ∧ (powerTask config locl power).fatal
              = some (Fatal.distributor e.ErrorCode e.ErrorDescription))
      ∧ distributorCheck config power2.DistributorError = none
      ∧ powerTask config locl power2 = powerLoop config locl power2.Response [] := by
  obtain ⟨e, he, hc, hd⟩ := distributorCheck_match config power.DistributorError hmatch
  have hn := distributorCheck_none config power2.DistributorError hnone
  refine ⟨?_, ⟨e, he, hc, ?_⟩, hn, ?_⟩
  · unfold powerTask; rw [hd]
  · unfold powerTask; rw [hd]
  · unfold powerTask; rw [hn]

theorem C10_distributor_error_witness :
    (powerTask sampleConfig UTC ⟨[samplePower], [⟨"1", "A", "x", "y"⟩, ⟨"2", "B", "500", "down"⟩]⟩).written
        = []
      ∧ (∃ e ∈ (⟨[samplePower], [⟨"1", "A", "x", "y"⟩, ⟨"2", "B", "500", "down"⟩]⟩
            : PowerResponse).DistributorError,
          e.Code = sampleConfig.DistributorCode
          ∧ (powerTask sampleConfig UTC
              ⟨[samplePower], [⟨"1", "A", "x", "y"⟩, ⟨"2", "B", "500", "down"⟩]⟩).fatal
              = some (Fatal.distributor e.ErrorCode e.ErrorDescription))
      ∧ distributorCheck sampleConfig
          (⟨[samplePower], [⟨"1", "A", "x", "y"⟩]⟩ : PowerResponse).DistributorError = none
      ∧ powerTask sampleConfig UTC ⟨[samplePower], [⟨"1", "A", "x", "y"⟩]⟩
          = powerLoop sampleConfig UTC
              (⟨[samplePower], [⟨"1", "A", "x", "y"⟩]⟩ : PowerResponse).Response [] :=
  C10_distributor_error sampleConfig UTC
    ⟨[samplePower], [⟨"1", "A", "x", "y"⟩, ⟨"2", "B", "500", "down"⟩]⟩
    ⟨[samplePower], [⟨"1", "A", "x", "y"⟩]⟩
    ⟨⟨"2", "B", "500", "down"⟩, by simp, by decide⟩
    (by intro e he; simp at he; subst he; decide)


theorem natDigitChar_isDigit (k : Nat) (h : k < 10) : (Nat.digitChar k).isDigit = true := by
  interval_cases k <;> rfl

theorem toDigitsCore_isDigit (fuel : Nat) :
    ∀ (n : Nat) (acc : List Char), (∀ ch ∈ acc, ch.isDigit = true) →
      ∀ ch ∈ Nat.toDigitsCore 10 fuel n acc, ch.isDigit = true := by
  induction fuel with
  | zero => intro n acc h; simpa [Nat.toDigitsCore] using h
  | succ f ih =>
    intro n acc h
    have hd : (Nat.digitChar (n % 10)).isDigit = true :=
      natDigitChar_isDigit _ (Nat.mod_lt _ (by decide))
    have hacc : ∀ ch ∈ Nat.digitChar (n % 10) :: acc, ch.isDigit = true := by
      intro ch hch
      rcases List.mem_cons.1 hch with rfl | h'
      · exact hd
      · exact h ch h'
    unfold Nat.toDigitsCore
    simp only
    split
    · exact hacc
    · exact ih _ _ hacc

theorem toDigitsCore_ne_nil (fuel n : Nat) (acc : List Char) (h : acc ≠ [] ∨ 0 < fuel) :
    Nat.toDigitsCore 10 fuel n acc ≠ [] := by
  induction fuel generalizing n acc with
  | zero =>
    rcases h with h | h
    · simpa [Nat.toDigitsCore] using h
    · omega
  | succ f ih =>
    unfold Nat.toDigitsCore
    simp only
    split
    · simp
    · exact ih _ _ (Or.inl (by simp))

theorem toDigits_isDigit (n : Nat) : ∀ ch ∈ Nat.toDigits 10 n, ch.isDigit = true :=
  toDigitsCore_isDigit _ _ _ (by simp)

theorem toDigits_ne_nil (n : Nat) : Nat.toDigits 10 n ≠ [] :=
  toDigitsCore_ne_nil _ _ _ (Or.inr (by omega))

theorem digitChar_isDigit (d : Nat) : (digitChar d).isDigit = true := by
  rcases digitChar_cases d with h | h | h | h | h | h | h | h | h | h <;> rw [h] <;> rfl

/-- `%.3f` prints exactly three decimal places. -/
theorem formatFloat_fixedThree (f : Float64) : FixedThree (formatFloat f 3) := by
  unfold formatFloat
  refine ⟨if f.neg then ['-'] else [], Nat.toDigits 10 (roundScaled f.mant f.exp 3 / 10 ^ 3),
    digitChar (roundScaled f.mant f.exp 3 % 10 ^ 3 / 10 / 10),
    digitChar (roundScaled f.mant f.exp 3 % 10 ^ 3 / 10),
    digitChar (roundScaled f.mant f.exp 3 % 10 ^ 3), ?_, ?_, toDigits_ne_nil _,
    toDigits_isDigit _, digitChar_isDigit _, digitChar_isDigit _, digitChar_isDigit _⟩
  · simp [fracDigits]
  · cases f.neg <;> simp

/-- `%v` of an `int64` prints a decimal integer. -/
theorem formatInt_decimal (i : Int) : DecimalInt (formatInt i) := by
  unfold formatInt
  split
  · exact ⟨['-'], _, rfl, Or.inr rfl, toDigits_ne_nil _, toDigits_isDigit _⟩
  · exact ⟨[], _, rfl, Or.inl rfl, toDigits_ne_nil _, toDigits_isDigit _⟩

theorem isDigit_ne_newline (ch : Char) (h : ch.isDigit = true) : ch ≠ '\n' := by
  rintro rfl
  exact absurd h (by decide)

theorem fixedThree_no_newline (s : List Char) (h : FixedThree s) : '\n' ∉ s := by
  obtain ⟨sign, ip, a, b, c, rfl, hs, -, hip, ha, hb, hc⟩ := h
  intro hm
  simp only [List.mem_append, List.mem_cons, List.mem_singleton, List.not_mem_nil,
    or_false] at hm
  rcases hm with (hm | hm) | hm | hm | hm | hm
  · rcases hs with rfl | rfl
    · cases hm
    · simp at hm
  · exact isDigit_ne_newline _ (hip _ hm) rfl
  · exact absurd hm (by decide)
  · exact isDigit_ne_newline _ ha hm.symm
  · exact isDigit_ne_newline _ hb hm.symm
  · exact isDigit_ne_newline _ hc hm.symm

theorem decimalInt_no_newline (s : List Char) (h : DecimalInt s) : '\n' ∉ s := by
  obtain ⟨sign, ds, rfl, hs, -, hds⟩ := h
  intro hm
  rcases List.mem_append.1 hm with hm | hm
  · rcases hs with rfl | rfl
    · cases hm
    · simp at hm
  · exact isDigit_ne_newline _ (hds _ hm) rfl


/-- The sample magnitude is the `float64` nearest to 1.234: it is
`mant * 2^-52` with `|1.234 - mant * 2^-52| ≤ 2^-53`. -/
theorem f1234_nearest :
    f1234.exp = -52 ∧ f1234.neg = false
      ∧ 2 * Int.natAbs (1234 * 2 ^ 52 - 1000 * (f1234.mant : Int)) ≤ 1000 := by
  refine ⟨rfl, rfl, ?_⟩
  unfold f1234
  norm_num

theorem bufferContent_data_aux (writes : List String) (buf : String) :
    (writes.foldl (fun b w => b ++ w) buf).data = buf.data ++ (writes.map String.data).flatten := by
  induction writes generalizing buf with
  | nil => simp
  | cons w ws ih => simp [ih, String.data_append]

theorem bufferContent_data (writes : List String) :
    (bufferContent writes).data = (writes.map String.data).flatten := by
  unfold bufferContent
  rw [bufferContent_data_aux]
  simp

theorem splitLinesAux_line (body rest cur : List Char) (h : '\n' ∉ body) :
    splitLinesAux (body ++ '\n' :: rest) cur
      = (cur.reverse ++ body) :: splitLinesAux rest [] := by
  induction body generalizing cur with
  | nil => simp [splitLinesAux]
  | cons c cs ih =>
    have hc : c ≠ '\n' := fun e => h (e ▸ List.mem_cons_self _ _)
    have hcs : '\n' ∉ cs := fun e => h (List.mem_cons_of_mem _ e)
    have e : splitLinesAux (c :: cs ++ '\n' :: rest) cur
        = splitLinesAux (cs ++ '\n' :: rest) (c :: cur) := by
      simp only [List.cons_append, splitLinesAux, hc, if_false]
      rfl
    rw [e, ih _ hcs]
    simp

/-- Splitting a buffer made of terminated lines gives the lines back. -/
theorem splitLines_lines (writes : List String) (h : ∀ l ∈ writes, IsLine l) :
    (splitLines (bufferContent writes)).map (fun l => l ++ "\n") = writes
      ∧ (splitLines (bufferContent writes)).length = writes.length := by
  unfold splitLines
  rw [bufferContent_data]
  induction writes with
  | nil => exact ⟨rfl, rfl⟩
  | cons w ws ih =>
    obtain ⟨body, hb, hn⟩ := h w (List.mem_cons_self _ _)
    obtain ⟨ih1, ih2⟩ := ih (fun l hl => h l (List.mem_cons_of_mem _ hl))
    simp only [List.map_cons, List.flatten_cons, hb, List.append_assoc, List.singleton_append]
    rw [splitLinesAux_line body _ [] hn]
    simp only [List.reverse_nil, List.nil_append, List.map_cons, List.length_cons]
    refine ⟨?_, by rw [ih2]⟩
    rw [ih1]
    congr 1
    apply String.ext
    simp [hb]

theorem mapPeriod_no_newline (period : String) (h : '\n' ∉ period.data) :
    '\n' ∉ (mapPeriod period).data := by
  unfold mapPeriod
  split
  · decide
  · split
    · decide
    · split
      · decide
      · exact h

theorem consumptionLineText_isLine (config : Config) (stat : Consumption) (unix : Int)
    (hc : '\n' ∉ config.Cups.data) (hp : '\n' ∉ stat.Period.data) :
    IsLine (consumptionLineText config stat unix) := by
  refine ⟨"datadis_consumption,cups=".data ++ config.Cups.data ++ ",period=".data
    ++ (mapPeriod stat.Period).data ++ " consumption=".data
    ++ formatFloat stat.MeasureMagnitudeActive 3 ++ " ".data ++ formatInt unix, ?_, ?_⟩
  · simp [consumptionLineText, String.data_append]
  · have h1 := mapPeriod_no_newline _ hp
    have h2 := fixedThree_no_newline _ (formatFloat_fixedThree stat.MeasureMagnitudeActive)
    have h3 := decimalInt_no_newline _ (formatInt_decimal unix)
    simp only [List.mem_append, not_or]
    exact ⟨⟨⟨⟨⟨⟨⟨by decide, hc⟩, by decide⟩, h1⟩, by decide⟩, h2⟩, by decide⟩, h3⟩

theorem powerLineText_isLine (config : Config) (stat : Power) (unix : Int)
    (hc : '\n' ∉ config.Cups.data) (hp : '\n' ∉ stat.Period.data) :
    IsLine (powerLineText config stat unix) := by
  refine ⟨"datadis_power,cups=".data ++ config.Cups.data ++ ",period=".data
    ++ stat.Period.data ++ " max_power=".data
    ++ formatFloat stat.MaxPower 3 ++ " ".data ++ formatInt unix, ?_, ?_⟩
  · simp [powerLineText, String.data_append]
  · have h2 := fixedThree_no_newline _ (formatFloat_fixedThree stat.MaxPower)
    have h3 := decimalInt_no_newline _ (formatInt_decimal unix)
    simp only [List.mem_append, not_or]
    exact ⟨⟨⟨⟨⟨⟨⟨by decide, hc⟩, by decide⟩, hp⟩, by decide⟩, h2⟩, by decide⟩, h3⟩


theorem consumptionLine_wellFormed (config : Config) (locl : Location) (stat : Consumption)
    (hd : WellFormedDate stat.Date) (ht : WellFormedTime stat.Hour) :
    ∃ unix, consumptionLine config locl stat = .ok (consumptionLineText config stat unix) := by
  obtain ⟨y, m, d, hv, hdate⟩ := hd
  rcases ht with h24 | ⟨hh, mm, hvt, htime⟩
  · refine ⟨civilEpochSeconds 0 y m d 0 0, ?_⟩
    rw [consumptionLine_eq, consumptionTimestamp_wellFormed locl stat y m d 0 0 hv (by decide)
      hdate (Or.inr ⟨h24, rfl, rfl⟩)]
    rfl
  · refine ⟨civilEpochSeconds 0 y m d hh mm, ?_⟩
    rw [consumptionLine_eq, consumptionTimestamp_wellFormed locl stat y m d hh mm hv hvt
      hdate (Or.inl htime)]
    rfl

theorem powerLine_wellFormed (config : Config) (locl : Location) (stat : Power)
    (hd : WellFormedDate stat.Date) (ht : WellFormedTime stat.Time) :
    ∃ unix, powerLine config locl stat = .ok (powerLineText config stat unix) := by
  obtain ⟨y, m, d, hv, hdate⟩ := hd
  rcases ht with h24 | ⟨hh, mm, hvt, htime⟩
  · refine ⟨civilEpochSeconds 0 y m d 0 0, ?_⟩
    rw [powerLine_eq, powerTimestamp_wellFormed locl stat y m d 0 0 hv (by decide)
      hdate (Or.inr ⟨h24, rfl, rfl⟩)]
    rfl
  · refine ⟨civilEpochSeconds 0 y m d hh mm, ?_⟩
    rw [powerLine_eq, powerTimestamp_wellFormed locl stat y m d hh mm hv hvt
      hdate (Or.inl htime)]
    rfl

/-- The consumption loop on well-formed records: no failure, and one write per
record, in the order of the records. -/
theorem consumptionLoop_wellFormed (config : Config) (locl : Location) :
    ∀ (cs : List Consumption) (acc : List String),
      (∀ r ∈ cs, WellFormedDate r.Date ∧ WellFormedTime r.Hour) →
      ∃ lines, consumptionLoop config locl cs acc = ⟨acc ++ lines, none⟩
        ∧ List.Forall₂ (fun r l => consumptionLine config locl r = .ok l
            ∧ ∃ unix, l = consumptionLineText config r unix) cs lines := by
  intro cs
  induction cs with
  | nil => intro acc _; exact ⟨[], by simp [consumptionLoop], List.Forall₂.nil⟩
  | cons r rs ih =>
    intro acc h
    obtain ⟨hd, ht⟩ := h r (List.mem_cons_self _ _)
    obtain ⟨unix, hl⟩ := consumptionLine_wellFormed config locl r hd ht
    obtain ⟨lines, hloop, hall⟩ := ih (acc ++ [consumptionLineText config r unix])
      (fun x hx => h x (List.mem_cons_of_mem _ hx))
    refine ⟨consumptionLineText config r unix :: lines, ?_, List.Forall₂.cons ⟨hl, unix, rfl⟩ hall⟩
    simp only [consumptionLoop, hl, hloop, List.append_assoc, List.singleton_append]

/-- The power loop on well-formed records: no failure, and one write per
record, in the order of the records. -/
theorem powerLoop_wellFormed (config : Config) (locl : Location) :
    ∀ (ps : List Power) (acc : List String),
      (∀ r ∈ ps, WellFormedDate r.Date ∧ WellFormedTime r.Time) →
      ∃ lines, powerLoop config locl ps acc = ⟨acc ++ lines, none⟩
        ∧ List.Forall₂ (fun r l => powerLine config locl r = .ok l
            ∧ ∃ unix, l = powerLineText config r unix) ps lines := by
  intro ps
  induction ps with
  | nil => intro acc _; exact ⟨[], by simp [powerLoop], List.Forall₂.nil⟩
  | cons r rs ih =>
    intro acc h
    obtain ⟨hd, ht⟩ := h r (List.mem_cons_self _ _)
    obtain ⟨unix, hl⟩ := powerLine_wellFormed config locl r hd ht
    obtain ⟨lines, hloop, hall⟩ := ih (acc ++ [powerLineText config r unix])
      (fun x hx => h x (List.mem_cons_of_mem _ hx))
    refine ⟨powerLineText config r unix :: lines, ?_, List.Forall₂.cons ⟨hl, unix, rfl⟩ hall⟩
    simp only [powerLoop, hl, hloop, List.append_assoc, List.singleton_append]

theorem forall₂_isLine_consumption (config : Config) (locl : Location)
    (hc : '\n' ∉ config.Cups.data) (cs : List Consumption) (lines : List String)
    (hp : ∀ r ∈ cs, '\n' ∉ r.Period.data)
    (h : List.Forall₂ (fun r l => consumptionLine config locl r = .ok l
            ∧ ∃ unix, l = consumptionLineText config r unix) cs lines) :
    ∀ l ∈ lines, IsLine l := by
  induction h with
  | nil => intro l hl; cases hl
  | @cons r l rs ls hrl _ ih =>
    intro x hx
    rcases List.mem_cons.1 hx with rfl | hx'
    · obtain ⟨_, unix, rfl⟩ := hrl
      exact consumptionLineText_isLine config r unix hc (hp r (List.mem_cons_self _ _))
    · exact ih (fun y hy => hp y (List.mem_cons_of_mem _ hy)) x hx'

theorem forall₂_isLine_power (config : Config) (locl : Location)
    (hc : '\n' ∉ config.Cups.data) (ps : List Power) (lines : List String)
    (hp : ∀ r ∈ ps, '\n' ∉ r.Period.data)
    (h : List.Forall₂ (fun r l => powerLine config locl r = .ok l
            ∧ ∃ unix, l = powerLineText config r unix) ps lines) :
    ∀ l ∈ lines, IsLine l := by
  induction h with
  | nil => intro l hl; cases hl
  | @cons r l rs ls hrl _ ih =>
    intro x hx
    rcases List.mem_cons.1 hx with rfl | hx'
    · obtain ⟨_, unix, rfl⟩ := hrl
      exact powerLineText_isLine config r unix hc (hp r (List.mem_cons_self _ _))
    · exact ih (fun y hy => hp y (List.mem_cons_of_mem _ hy)) x hx'


theorem natDigitChar_toNat (k : Nat) (h : k < 10) : (Nat.digitChar k).toNat - 48 = k := by
  interval_cases k <;> rfl

theorem readDigits_append_one (xs : List Char) (c : Char) (acc : Nat) :
    readDigits (xs ++ [c]) acc
      = (readDigits xs acc).bind (fun v =>
          if c.isDigit then some (v * 10 + (c.toNat - 48)) else none) := by
  induction xs generalizing acc with
  | nil => simp [readDigits]
  | cons x xs ih =>
    simp only [List.cons_append, readDigits]
    split
    · exact ih _
    · rfl

theorem toDigitsCore_acc (fuel : Nat) :
    ∀ (n : Nat) (ds : List Char),
      Nat.toDigitsCore 10 fuel n ds = Nat.toDigitsCore 10 fuel n [] ++ ds := by
  induction fuel with
  | zero => intro n ds; simp [Nat.toDigitsCore]
  | succ f ih =>
    intro n ds
    unfold Nat.toDigitsCore
    simp only
    split
    · simp
    · rw [ih _ (_ :: ds), ih _ [_]]
      simp

/-- Reading back the decimal digits Lean prints for `n` gives `n`. -/
theorem readDigits_toDigitsCore (fuel : Nat) :
    ∀ n : Nat, n < fuel → readDigits (Nat.toDigitsCore 10 fuel n []) 0 = some n := by
  induction fuel with
  | zero => intro n h; omega
  | succ f ih =>
    intro n h
    have hd : (Nat.digitChar (n % 10)).isDigit = true :=
      natDigitChar_isDigit _ (Nat.mod_lt _ (by decide))
    have hv : (Nat.digitChar (n % 10)).toNat - 48 = n % 10 :=
      natDigitChar_toNat _ (Nat.mod_lt _ (by decide))
    unfold Nat.toDigitsCore
    simp only
    split
    · rename_i h0
      simp only [readDigits, hd, if_true, hv]
      congr 1
      omega
    · rename_i h0
      rw [toDigitsCore_acc, readDigits_append_one, ih (n / 10) (by omega)]
      simp only [Option.some_bind, hd, if_true, hv]
      congr 1
      omega

theorem readNat_toDigits (n : Nat) : readNat (Nat.toDigits 10 n) = some n := by
  unfold readNat
  rw [if_neg (toDigits_ne_nil n)]
  exact readDigits_toDigitsCore _ _ (by omega)

theorem toDigits_head (n : Nat) :
    ∃ c cs, Nat.toDigits 10 n = c :: cs ∧ c.isDigit = true := by
  have hne := toDigits_ne_nil n
  have hall := toDigits_isDigit n
  cases h : Nat.toDigits 10 n with
  | nil => exact absurd h hne
  | cons c cs => exact ⟨c, cs, rfl, hall c (by rw [h]; exact List.mem_cons_self _ _)⟩

/-- The decimal text of the timestamp denotes the timestamp. -/
theorem readInt_formatInt (i : Int) : readInt (formatInt i) = some i := by
  unfold formatInt
  split
  · rename_i h
    unfold readInt
    simp only [List.head?_cons, if_true, List.tail_cons, readNat_toDigits]
    have e : -(Int.ofNat i.natAbs) = i := by
      simp only [Int.ofNat_eq_coe]
      omega
    rw [e]
  · rename_i h
    obtain ⟨c, cs, hc, hd⟩ := toDigits_head i.toNat
    have hne : c ≠ '-' := by
      rintro rfl
      exact absurd hd (by decide)
    unfold readInt
    rw [if_neg (by rw [hc]; simp [hne]), readNat_toDigits]
    have e : Int.ofNat i.toNat = i := by
      simp only [Int.ofNat_eq_coe]
      omega
    simp only [e]


theorem takeWhile_digits (xs rest : List Char) (h : ∀ ch ∈ xs, ch.isDigit = true) :
    (xs ++ '.' :: rest).takeWhile (fun c => c ≠ '.') = xs := by
  induction xs with
  | nil => simp
  | cons x xs ih =>
    have hx : x ≠ '.' := by
      rintro rfl
      exact absurd (h _ (List.mem_cons_self _ _)) (by decide)
    simp only [List.cons_append, List.takeWhile_cons, hx, ne_eq, not_false_eq_true,
      decide_True, if_true]
    rw [ih (fun ch hch => h ch (List.mem_cons_of_mem _ hch))]

theorem dropWhile_digits (xs rest : List Char) (h : ∀ ch ∈ xs, ch.isDigit = true) :
    (xs ++ '.' :: rest).dropWhile (fun c => c ≠ '.') = '.' :: rest := by
  induction xs with
  | nil => simp
  | cons x xs ih =>
    have hx : x ≠ '.' := by
      rintro rfl
      exact absurd (h _ (List.mem_cons_self _ _)) (by decide)
    simp only [List.cons_append, List.dropWhile_cons, hx, ne_eq, not_false_eq_true,
      decide_True, if_true]
    rw [ih (fun ch hch => h ch (List.mem_cons_of_mem _ hch))]

theorem readNat_three (r : Nat) (h : r < 1000) :
    readNat [digitChar (r / 10 / 10), digitChar (r / 10), digitChar r] = some r := by
  unfold readNat
  rw [if_neg (by simp)]
  have h1 : (digitChar (r / 10 / 10)).toNat - 48 = r / 10 / 10 % 10 := by
    rw [digitChar_toNat]; omega
  have h2 : (digitChar (r / 10)).toNat - 48 = r / 10 % 10 := by
    rw [digitChar_toNat]; omega
  have h3 : (digitChar r).toNat - 48 = r % 10 := by
    rw [digitChar_toNat]; omega
  simp only [readDigits, digitChar_isDigit, if_true, h1, h2, h3]
  congr 1
  omega

/-- Reading back a text printed with three decimals gives its sign and its
count of thousandths. -/
theorem readFixedThree_print (neg : Bool) (n : Nat) :
    readFixedThree ((if neg then ['-'] else []) ++ Nat.toDigits 10 (n / 10 ^ 3) ++ ['.']
        ++ fracDigits (n % 10 ^ 3) 3) = some (neg, n) := by
  obtain ⟨c, cs, hc, hd⟩ := toDigits_head (n / 10 ^ 3)
  have hne : c ≠ '-' := by
    rintro rfl
    exact absurd hd (by decide)
  have hall := toDigits_isDigit (n / 10 ^ 3)
  have hfrac : fracDigits (n % 10 ^ 3) 3
      = [digitChar (n % 10 ^ 3 / 10 / 10), digitChar (n % 10 ^ 3 / 10), digitChar (n % 10 ^ 3)] := by
    simp [fracDigits]
  have hr : n % 10 ^ 3 < 1000 := Nat.mod_lt _ (by norm_num)
  have hbody : ∀ body, body = Nat.toDigits 10 (n / 10 ^ 3) ++ '.' :: fracDigits (n % 10 ^ 3) 3 →
      (match body.dropWhile (fun c => c ≠ '.') with
        | ['.', a, b, c] =>
          match readNat (body.takeWhile (fun c => c ≠ '.')), readNat [a, b, c] with
          | some i, some fr => some (neg, i * 1000 + fr)
          | _, _ => none
        | _ => none) = some (neg, n) := by
    intro body hb
    rw [hb, takeWhile_digits _ _ hall, dropWhile_digits _ _ hall, hfrac]
    simp only [readNat_toDigits, readNat_three _ hr]
    congr 2
    have := Nat.div_add_mod n (10 ^ 3)
    norm_num at this ⊢
    omega
  unfold readFixedThree
  cases neg with
  | true =>
    simp only [if_true, List.cons_append, List.nil_append, List.head?_cons, decide_True,
      List.tail_cons, List.append_assoc, List.singleton_append]
    exact hbody _ rfl
  | false =>
    have hh : decide ((Nat.toDigits 10 (n / 10 ^ 3) ++ '.' :: fracDigits (n % 10 ^ 3) 3).head?
        = some '-') = false := by
      rw [hc]
      simp [hne]
    simp only [Bool.false_eq_true, if_false, List.nil_append, List.append_assoc,
      List.singleton_append, hh]
    exact hbody _ rfl

/-- The rounding of `%.3f` gives the integer nearest to `|f| * 1000`, ties to
the even neighbour. -/
theorem roundScaled_nearest (f : Float64) : NearestThousandth f (roundScaled f.mant f.exp 3) := by
  unfold NearestThousandth scaledNum scaledDen roundScaled
  by_cases he : 0 ≤ f.exp
  · have h0 : (-f.exp).toNat = 0 := by omega
    rw [if_pos he, h0]
    have e : ((f.mant * 1000 * 2 ^ f.exp.toNat : Nat) : Int)
        - ((f.mant * 2 ^ f.exp.toNat * 10 ^ 3 : Nat) : Int) * ((2 ^ 0 : Nat) : Int) = 0 := by
      push_cast
      ring
    rw [e]
    simp
  · have h0 : f.exp.toNat = 0 := by omega
    rw [if_neg he, h0]
    simp only [pow_zero, Nat.mul_one]
    have hD : 0 < 2 ^ (-f.exp).toNat := pow_pos (by norm_num) _
    generalize 2 ^ (-f.exp).toNat = D at hD
    have hnum : f.mant * 1000 = f.mant * 10 ^ 3 := by norm_num
    rw [hnum]
    generalize f.mant * 10 ^ 3 = num
    have hdm := Nat.div_add_mod num D
    have hr : num % D < D := Nat.mod_lt _ hD
    generalize hq : num / D = q at hdm
    generalize hrr : num % D = r at hdm hr
    have hX : ((q + 1 : Nat) : Int) * (D : Int) = (D : Int) * q + D := by push_cast; ring
    have hY : ((q : Nat) : Int) * (D : Int) = (D : Int) * q := by ring
    have hZ : ((D * q : Nat) : Int) = (D : Int) * q := by push_cast; ring
    have hnumZ : (num : Int) = (D : Int) * q + r := by rw [← hZ]; omega
    generalize (D : Int) * q = X at hX hY hnumZ
    split
    · rw [hX]; omega
    · split
      · split
        · rw [hY]; omega
        · rw [hX]; omega
      · rw [hY]; omega


/-- The text `%.3f` prints reads back as the sign of the value and the
integer nearest to a thousand times its absolute value. -/
theorem formatFloat_reads (f : Float64) :
    ∃ n, readFixedThree (formatFloat f 3) = some (f.neg, n) ∧ NearestThousandth f n :=
  ⟨roundScaled f.mant f.exp 3, readFixedThree_print f.neg _, roundScaled_nearest f⟩

/-- C6. Line shape: for every configured cups identifier and every
consumption record with a well-formed date and time the loop hands
`datadis_consumption,cups=<cups>,period=<mapped period> consumption=<magnitude>
<timestamp>` and a line feed to the buffer, and for every such power record
`datadis_power,cups=<cups>,period=<period> max_power=<max power> <timestamp>`
and a line feed.  The magnitude text has exactly three decimal places and
denotes the magnitude rounded to the nearest thousandth (ties to even) with
its sign; the timestamp text is a decimal integer that denotes the Unix
seconds of the date and time. -/
theorem C6_line_shape (config : Config) (locl : Location) (date time : String)
    (y m d hh mm : Nat) (hv : validDate y m d) (ht : validTime hh mm)
    (hdate : date = dateString y m d)
    (htime : time = timeString hh mm ∨ (time = "24:00" ∧ hh = 0 ∧ mm = 0))
    (stat : Consumption) (p : Power) (hsd : stat.Date = date) (hsh : stat.Hour = time)
    (hpd : p.Date = date) (hpt : p.Time = time) :
    consumptionLine config locl stat
        = .ok ("datadis_consumption,cups=" ++ config.Cups ++ ",period=" ++ mapPeriod stat.Period
            ++ " consumption=" ++ String.mk (formatFloat stat.MeasureMagnitudeActive 3)
            ++ " " ++ String.mk (formatInt (civilEpochSeconds 0 y m d hh mm)) ++ "\n")
      ∧ powerLine config locl p
        = .ok ("datadis_power,cups=" ++ config.Cups ++ ",period=" ++ p.Period
            ++ " max_power=" ++ String.mk (formatFloat p.MaxPower 3)
            ++ " " ++ String.mk (formatInt (civilEpochSeconds 0 y m d hh mm)) ++ "\n")
      ∧ FixedThree (formatFloat stat.MeasureMagnitudeActive 3)
      ∧ FixedThree (formatFloat p.MaxPower 3)
      ∧ DecimalInt (formatInt (civilEpochSeconds 0 y m d hh mm))
      ∧ (∃ n, readFixedThree (formatFloat stat.MeasureMagnitudeActive 3)
            = some (stat.MeasureMagnitudeActive.neg, n)
          ∧ NearestThousandth stat.MeasureMagnitudeActive n)
      ∧ (∃ n, readFixedThree (formatFloat p.MaxPower 3) = some (p.MaxPower.neg, n)
          ∧ NearestThousandth p.MaxPower n)
      ∧ readInt (formatInt (civilEpochSeconds 0 y m d hh mm))
          = some (civilEpochSeconds 0 y m d hh mm) := by
  have hc := consumptionTimestamp_wellFormed locl stat y m d hh mm hv ht (hsd.trans hdate)
    (by rw [hsh]; exact htime)
  have hp := powerTimestamp_wellFormed locl p y m d hh mm hv ht (hpd.trans hdate)
    (by rw [hpt]; exact htime)
  refine ⟨?_, ?_, formatFloat_fixedThree _, formatFloat_fixedThree _, formatInt_decimal _,
    formatFloat_reads _, formatFloat_reads _, readInt_formatInt _⟩
  · rw [consumptionLine_eq, hc]; rfl
  · rw [powerLine_eq, hp]; rfl

theorem C6_line_shape_witness :
    (consumptionLine sampleConfig UTC sampleConsumption
        = .ok ("datadis_consumption,cups=" ++ sampleConfig.Cups ++ ",period="
            ++ mapPeriod sampleConsumption.Period
            ++ " consumption=" ++ String.mk (formatFloat sampleConsumption.MeasureMagnitudeActive 3)
            ++ " " ++ String.mk (formatInt (civilEpochSeconds 0 2024 5 1 13 0)) ++ "\n")
      ∧ powerLine sampleConfig UTC { samplePower with Date := "2024/05/01", Time := "13:00" }
        = .ok ("datadis_power,cups=" ++ sampleConfig.Cups ++ ",period="
            ++ ({ samplePower with Date := "2024/05/01", Time := "13:00" } : Power).Period
            ++ " max_power=" ++ String.mk (formatFloat
                ({ samplePower with Date := "2024/05/01", Time := "13:00" } : Power).MaxPower 3)
            ++ " " ++ String.mk (formatInt (civilEpochSeconds 0 2024 5 1 13 0)) ++ "\n")
      ∧ FixedThree (formatFloat sampleConsumption.MeasureMagnitudeActive 3)
      ∧ FixedThree (formatFloat
          ({ samplePower with Date := "2024/05/01", Time := "13:00" } : Power).MaxPower 3)
      ∧ DecimalInt (formatInt (civilEpochSeconds 0 2024 5 1 13 0))
      ∧ (∃ n, readFixedThree (formatFloat sampleConsumption.MeasureMagnitudeActive 3)
            = some (sampleConsumption.MeasureMagnitudeActive.neg, n)
          ∧ NearestThousandth sampleConsumption.MeasureMagnitudeActive n)
      ∧ (∃ n, readFixedThree (formatFloat
            ({ samplePower with Date := "2024/05/01", Time := "13:00" } : Power).MaxPower 3)
            = some (({ samplePower with Date := "2024/05/01", Time := "13:00" }
                : Power).MaxPower.neg, n)
          ∧ NearestThousandth
              ({ samplePower with Date := "2024/05/01", Time := "13:00" } : Power).MaxPower n)
      ∧ readInt (formatInt (civilEpochSeconds 0 2024 5 1 13 0))
          = some (civilEpochSeconds 0 2024 5 1 13 0))
    ∧ consumptionLine sampleConfig UTC sampleConsumption
        = .ok "datadis_consumption,cups=ES0021000000000001JN,period=1 consumption=1.234 1714568400\n"
    ∧ powerLine sampleConfig UTC samplePower
        = .ok "datadis_power,cups=ES0021000000000001JN,period=PUNTA max_power=3.500 1709164800\n"
    ∧ readFixedThree (formatFloat f1234 3) = some (false, 1234)
    ∧ readInt (formatInt 1714568400) = some 1714568400 :=
  ⟨C6_line_shape sampleConfig UTC "2024/05/01" "13:00" 2024 5 1 13 0 (by decide) (by decide)
      (by decide) (Or.inl (by decide)) sampleConsumption
      { samplePower with Date := "2024/05/01", Time := "13:00" } rfl rfl rfl rfl,
    rfl, rfl, rfl, rfl⟩


/-- C7 (amended). One line per record, task by task: for N consumption records
and M power records whose dates and times are all well-formed, with no
matching distributor error and with no line feed in the cups identifier or in
a period label, neither transformer fails, each makes exactly one
`WriteString` call per record of its response, in the order of the records
(N and M calls, N+M in all, none filtered out or duplicated), and the text
each task writes splits at line feeds into exactly its own N (or M) lines,
which are those writes.  Nothing is said about the content of the buffer the
two goroutines share. -/
theorem C7_one_line_per_record (config : Config) (locl : Location) (cs : List Consumption)
    (power : PowerResponse)
    (hcups : '\n' ∉ config.Cups.data)
    (hcs : ∀ r ∈ cs, WellFormedDate r.Date ∧ WellFormedTime r.Hour ∧ '\n' ∉ r.Period.data)
    (hps : ∀ r ∈ power.Response,
      WellFormedDate r.Date ∧ WellFormedTime r.Time ∧ '\n' ∉ r.Period.data)
    (hnone : ∀ e ∈ power.DistributorError, e.Code ≠ config.DistributorCode) :
    (consumptionTask config locl cs).fatal = none
      ∧ (powerTask config locl power).fatal = none
      ∧ List.Forall₂ (fun r l => consumptionLine config locl r = .ok l) cs
          (consumptionTask config locl cs).written
      ∧ List.Forall₂ (fun r l => powerLine config locl r = .ok l) power.Response
          (powerTask config locl power).written
      ∧ (consumptionTask config locl cs).written.length
          + (powerTask config locl power).written.length
          = cs.length + power.Response.length
      ∧ (splitLines (bufferContent (consumptionTask config locl cs).written)).map
            (fun l => l ++ "\n") = (consumptionTask config locl cs).written
      ∧ (splitLines (bufferContent (powerTask config locl power).written)).map
            (fun l => l ++ "\n") = (powerTask config locl power).written
      ∧ (splitLines (bufferContent (consumptionTask config locl cs).written)).length
          + (splitLines (bufferContent (powerTask config locl power).written)).length
          = cs.length + power.Response.length := by
  obtain ⟨cl, hcl, hcall⟩ := consumptionLoop_wellFormed config locl cs []
    (fun r hr => ⟨(hcs r hr).1, (hcs r hr).2.1⟩)
  obtain ⟨pl, hpl, hpall⟩ := powerLoop_wellFormed config locl power.Response []
    (fun r hr => ⟨(hps r hr).1, (hps r hr).2.1⟩)
  have hct : consumptionTask config locl cs = ⟨cl, none⟩ := by
    unfold consumptionTask; rw [hcl]; rfl
  have hpt : powerTask config locl power = ⟨pl, none⟩ := by
    unfold powerTask
    rw [distributorCheck_none config _ hnone, hpl]; rfl
  rw [hct, hpt]
  have hcline := forall₂_isLine_consumption config locl hcups cs cl
    (fun r hr => (hcs r hr).2.2) hcall
  have hpline := forall₂_isLine_power config locl hcups power.Response pl
    (fun r hr => (hps r hr).2.2) hpall
  obtain ⟨hcsplit, hclen⟩ := splitLines_lines cl hcline
  obtain ⟨hpsplit, hplen⟩ := splitLines_lines pl hpline
  refine ⟨rfl, rfl, hcall.imp (fun _ _ h => h.1), hpall.imp (fun _ _ h => h.1), ?_, hcsplit,
    hpsplit, ?_⟩
  · show cl.length + pl.length = _
    rw [hcall.length_eq, hpall.length_eq]
  · show (splitLines (bufferContent cl)).length + (splitLines (bufferContent pl)).length = _
    rw [hclen, hplen, hcall.length_eq, hpall.length_eq]

theorem sample_written :
    (consumptionTask sampleConfig UTC [sampleConsumption]).written
        = ["datadis_consumption,cups=ES0021000000000001JN,period=1 consumption=1.234 1714568400\n"]
      ∧ (powerTask sampleConfig UTC ⟨[samplePower], []⟩).written
        = ["datadis_power,cups=ES0021000000000001JN,period=PUNTA max_power=3.500 1709164800\n"] :=
  ⟨rfl, rfl⟩

theorem C7_one_line_per_record_witness :
    (consumptionTask sampleConfig UTC [sampleConsumption]).fatal = none
      ∧ (powerTask sampleConfig UTC ⟨[samplePower], []⟩).fatal = none
      ∧ List.Forall₂ (fun r l => consumptionLine sampleConfig UTC r = .ok l) [sampleConsumption]
          (consumptionTask sampleConfig UTC [sampleConsumption]).written
      ∧ List.Forall₂ (fun r l => powerLine sampleConfig UTC r = .ok l)
          (⟨[samplePower], []⟩ : PowerResponse).Response
          (powerTask sampleConfig UTC ⟨[samplePower], []⟩).written
      ∧ (consumptionTask sampleConfig UTC [sampleConsumption]).written.length
          + (powerTask sampleConfig UTC ⟨[samplePower], []⟩).written.length
          = [sampleConsumption].length + (⟨[samplePower], []⟩ : PowerResponse).Response.length
      ∧ (splitLines (bufferContent
            (consumptionTask sampleConfig UTC [sampleConsumption]).written)).map
            (fun l => l ++ "\n") = (consumptionTask sampleConfig UTC [sampleConsumption]).written
      ∧ (splitLines (bufferContent (powerTask sampleConfig UTC ⟨[samplePower], []⟩).written)).map
            (fun l => l ++ "\n") = (powerTask sampleConfig UTC ⟨[samplePower], []⟩).written
      ∧ (splitLines (bufferContent
            (consumptionTask sampleConfig UTC [sampleConsumption]).written)).length
          + (splitLines (bufferContent
              (powerTask sampleConfig UTC ⟨[samplePower], []⟩).written)).length
          = [sampleConsumption].length + (⟨[samplePower], []⟩ : PowerResponse).Response.length :=
  C7_one_line_per_record sampleConfig UTC [sampleConsumption] ⟨[samplePower], []⟩
    (by decide)
    (by
      intro r hr
      rw [List.mem_singleton] at hr
      subst hr
      exact ⟨⟨2024, 5, 1, by decide, by decide⟩, Or.inr ⟨13, 0, by decide, by decide⟩,
        by decide⟩)
    (by
      intro r hr
      rw [List.mem_singleton] at hr
      subst hr
      exact ⟨⟨2024, 2, 29, by decide, by decide⟩, Or.inl (by decide), by decide⟩)
    (by intro e he; cases he)

/-- C7 (the claim as stated fails). A single consumption record with a
well-formed date and time whose period label is `A`, line feed, `B`, and a
power response with no record and no distributor error: the power task
writes nothing, so the batch is what the consumption task wrote, and it
splits at line feeds into 2 lines, not N + M = 1. -/
theorem C7_newline_counterexample :
    WellFormedDate newlineConsumption.Date ∧ WellFormedTime newlineConsumption.Hour
      ∧ (consumptionTask sampleConfig UTC [newlineConsumption]).fatal = none
      ∧ powerTask sampleConfig UTC ⟨[], []⟩ = ⟨[], none⟩
      ∧ (consumptionTask sampleConfig UTC [newlineConsumption]).written
        = ["datadis_consumption,cups=ES0021000000000001JN,period=A\nB consumption=1.234 1714568400\n"]
      ∧ (splitLines (bufferContent
          (consumptionTask sampleConfig UTC [newlineConsumption]).written)).length = 2
      ∧ (splitLines (bufferContent
          (consumptionTask sampleConfig UTC [newlineConsumption]).written)).length
          ≠ [newlineConsumption].length + (⟨[], []⟩ : PowerResponse).Response.length := by
  have hw : (consumptionTask sampleConfig UTC [newlineConsumption]).written
      = ["datadis_consumption,cups=ES0021000000000001JN,period=A\nB consumption=1.234 1714568400\n"] :=
    rfl
  have h2 : (splitLines (bufferContent
      ["datadis_consumption,cups=ES0021000000000001JN,period=A\nB consumption=1.234 1714568400\n"])).length
      = 2 := by decide
  refine ⟨⟨2024, 5, 1, by decide, by decide⟩, Or.inr ⟨13, 0, by decide, by decide⟩, rfl, rfl,
    hw, ?_, ?_⟩
  · rw [hw]; exact h2
  · rw [hw, h2]; decide

end Datadis
